import Mathlib

/-!
# Role-link registry and admin saga of `rosa`

A shallow embedding of the role-link functions of `pkg/ocm/helpers.go`
(`LinkAccountRole`, `LinkOrgToRole`, `UnlinkUserRoleFromAccount`,
`UnlinkOCMRoleFromOrg`, `GetAccountLinkedUserRoles`,
`GetOrganizationLinkedOCMRoles`, `CheckIfAWSAccountExists`, `CheckRoleExists`), of
`IsValidClusterName`, and of the admin command of `cmd/create/admin/cmd.go` (`run`,
`generateRandomPassword`).

Remote calls are made explicit: every function receives the answer of the
remote `Get` it performs (and the answer of the write it may perform) as an
argument and returns, next to its Go result, the list of label writes it
issued.  Go strings are Lean strings; the only separators the code uses are
single characters.  Every step of the source that is checked with `err != nil`
(a `Send()`, a `Build()`) is a possible failure of the embedding: its outcome is an
argument of the function.  The generated builders of the SDK copy their fields and never
assign their error, so the claims about a step that follows a `Build()` are stated for a
build that returns no error.  The numbers drawn by `rand.Int` are arguments as well, and
a Go panic (index out of range) is a result of its own.
-/

namespace Rosa

/-! ## Go standard library: `strings` -/

/-- Character-level `strings.Split(s, sep)` for a one-character separator:
the pieces between the separators, `[[]]` for the empty input. -/
def splitChars (sep : Char) : List Char → List (List Char)
  | [] => [[]]
  | c :: cs =>
    if c = sep then [] :: splitChars sep cs
    else
      match splitChars sep cs with
      | [] => [[c]]
      | h :: t => (c :: h) :: t

/-- Character-level `strings.SplitN(s, sep, n)` for `n ≥ 0`: at most `n`
pieces, the last one being the unsplit remainder; `n = 0` gives no piece. -/
def splitNChars (sep : Char) : Nat → List Char → List (List Char)
  | 0, _ => []
  | 1, s => [s]
  | _ + 2, [] => [[]]
  | n + 2, c :: cs =>
    if c = sep then [] :: splitNChars sep (n + 1) cs
    else
      match splitNChars sep (n + 2) cs with
      | [] => [[c]]
      | h :: t => (c :: h) :: t

/-- Character-level `strings.Join(elems, sep)` for a one-character separator. -/
def joinChars (sep : Char) : List (List Char) → List Char
  | [] => []
  | [x] => x
  | x :: y :: rest => x ++ sep :: joinChars sep (y :: rest)

/-- Go `strings.Split(s, ",")`-style split on a one-character separator. -/
def stringsSplit (s : String) (sep : Char) : List String :=
  (splitChars sep s.data).map String.mk

/-- Go `strings.SplitN(s, sep, n)` on a one-character separator. -/
def stringsSplitN (s : String) (sep : Char) (n : Nat) : List String :=
  (splitNChars sep n s.data).map String.mk

/-- Go `strings.Join(elems, sep)` on a one-character separator. -/
def stringsJoin (elems : List String) (sep : Char) : String :=
  String.mk (joinChars sep (elems.map String.data))

/-- Go `strings.HasPrefix(s, p)`. -/
def stringsStartsWith (s p : String) : Bool :=
  p.data.isPrefixOf s.data

/-! ## `github.com/aws/aws-sdk-go/aws/arn` -/

/-- Errors a remote-facing function of `helpers.go` can return, one
constructor for each expression of the source that builds an error. -/
inductive Error where
  /-- Go `arn.Parse`: "arn: invalid prefix". -/
  | arnInvalidStart
  /-- Go `arn.Parse`: "arn: not enough sections". -/
  | arnNotEnoughSections
  /-- Go `errors.UserErrorf("User organization '%s' has role-arn '%s' associated. Only one
  role can be linked per AWS account per organization", orgID, selectedARN)`. -/
  | userConflict (orgID selectedARN : String)
  /-- Go `errors.UserErrorf("Role ARN '%s' is not linked with the current account '%s'", ..)`. -/
  | userNotLinkedAccount (roleARN accountID : String)
  /-- Go `errors.UserErrorf("Role-arn '%s' is not linked with the organization account '%s'", ..)`. -/
  | userNotLinkedOrg (roleARN orgID : String)
  /-- Go `errors.Forbidden.UserErrorf("%v", err)`. -/
  | forbiddenUser
  /-- Go `handleErr(res, err)`: an error typed `errors.ErrorType(res.Status())`, where
  `res` is the error object of a response. -/
  | handled (status : Nat)
  /-- The error of `Send()` returned as it is, for a response of the given status. -/
  | sendErr (status : Nat)
  /-- The error of a builder's `Build()` returned as it is. -/
  | buildErr
  deriving DecidableEq, Repr

deriving instance DecidableEq for Except

/-- The `arn.ARN` structure. -/
structure ARN where
  Partition : String
  Service : String
  Region : String
  AccountID : String
  Resource : String
  deriving DecidableEq, Repr

/-- The function `arn.Parse` of the AWS SDK: the string must start with `arn:` and
`strings.SplitN(arn, ":", 6)` must give six sections; the account-ID is the
fifth. -/
def Parse (arn : String) : Except Error ARN :=
  if !stringsStartsWith arn "arn:" then .error .arnInvalidStart
  else
    match stringsSplitN arn ':' 6 with
    | [_, partition, service, region, accountID, resource] =>
      .ok ⟨partition, service, region, accountID, resource⟩
    | _ => .error .arnNotEnoughSections

/-! ## The remote label service, as the functions see it -/

/-- The labels the registry stores its sets in. -/
def OCMRoleLabel : String := "sts_ocm_role"

/-- The label of the account scope. -/
def USERRoleLabel : String := "sts_user_role"

/-- Answer of a remote label `Get().Send()`: either the label (`err == nil`,
`resp.Body().Value()` is its value) or a failure with an HTTP status (`err != nil`,
the body is nil and `Value()` of a nil body is the empty string). -/
inductive Response where
  | ok (value : String)
  | failed (status : Nat)
  deriving DecidableEq, Repr

/-- Go `err != nil` for the answer of a `Get`. -/
def Response.isErr : Response → Bool
  | .ok _ => false
  | .failed _ => true

/-- Go `resp.Status()`. -/
def Response.Status : Response → Nat
  | .ok _ => 200
  | .failed status => status

/-- Go `resp.Error().Status()`: the status of the error object, 0 when there is none. -/
def Response.ErrorStatus : Response → Nat
  | .ok _ => 0
  | .failed status => status

/-- Go `resp.Body().Value()`. -/
def Response.Value : Response → String
  | .ok value => value
  | .failed _ => ""

/-- A label write sent to the remote service. -/
inductive LabelCall where
  /-- Go `Labels().Add().Body(label).Send()` with the label's key and value. -/
  | Add (key value : String)
  /-- Go `Labels().Labels(key).Update().Body(label).Send()`. -/
  | Update (key value : String)
  /-- Go `Labels().Labels(key).Delete().Send()`. -/
  | Delete (key : String)
  deriving DecidableEq, Repr

/-- What a function did: its Go result and the label writes it sent, in order. -/
structure Outcome (α : Type) where
  result : α
  calls : List LabelCall
  deriving DecidableEq, Repr

/-! ## `github.com/openshift/rosa/pkg/helper` -/

/-- Modelled from the spec: `helper.Contains` (package `pkg/helper` is not among the
sources); "if the ARN is not a member": membership of the element in the slice. -/
def Contains (slice : List String) (element : String) : Bool :=
  slice.contains element

/-- Modelled from the spec: `helper.RemoveStrFromSlice` (package `pkg/helper` is not
among the sources); "otherwise removes it": the slice without the given string, the
other elements in their order.  On a slice without repetitions, removing the first
occurrence and removing all occurrences are the same. -/
def RemoveStrFromSlice (s : List String) (str : String) : List String :=
  s.erase str

/-! ## `pkg/ocm/helpers.go`: the role-link registry -/

/-- The loop of `CheckIfAWSAccountExists` over `strings.Split(existingARN, ",")`. -/
def checkLoop (existingARN awsAccountID : String) :
    List String → Bool × String × String × Option Error
  | [] => (false, existingARN, "", none)
  | value :: rest =>
    match Parse value with
    | .error err => (false, "", "", some err)
    | .ok parsedARN =>
      if parsedARN.AccountID = awsAccountID then (true, existingARN, value, none)
      else checkLoop existingARN awsAccountID rest

/-- The function `Client.CheckIfAWSAccountExists`; `resp` is the answer of the `Get`
of the organization's `sts_ocm_role` label. -/
def CheckIfAWSAccountExists (resp : Response) (awsAccountID : String) :
    Bool × String × String × Option Error :=
  if resp.isErr && resp.Status != 404 then
    if resp.Status = 403 then (false, "", "", some .forbiddenUser)
    else (false, "", "", some (.handled resp.ErrorStatus))
  else
    let existingARN := resp.Value
    if existingARN ≠ "" then
      checkLoop existingARN awsAccountID (stringsSplit existingARN ',')
    else (false, existingARN, "", none)

/-- The function `Client.LinkOrgToRole`; `resp` is the answer of the `Get` inside
`CheckIfAWSAccountExists`, `buildFails` tells whether `NewLabel()...Build()` returns
an error, `addErr` is the status of a failing `Add` (none when the `Add` succeeds). -/
def LinkOrgToRole (resp : Response) (buildFails : Bool) (addErr : Option Nat)
    (orgID roleARN : String) : Outcome (Bool × Option Error) :=
  match Parse roleARN with
  | .error err => ⟨(false, some err), []⟩
  | .ok parsedARN =>
    match CheckIfAWSAccountExists resp parsedARN.AccountID with
    | (_, _, _, some err) => ⟨(false, some err), []⟩
    | (exists_, existingARN, selectedARN, none) =>
      if exists_ then
        if selectedARN ≠ roleARN then ⟨(false, some (.userConflict orgID selectedARN)), []⟩
        else ⟨(false, none), []⟩
      else
        let value := if existingARN ≠ "" then existingARN ++ "," ++ roleARN else roleARN
        if buildFails then ⟨(false, some .buildErr), []⟩
        else
          match addErr with
          | some status => ⟨(false, some (.handled status)), [.Add OCMRoleLabel value]⟩
          | none => ⟨(true, none), [.Add OCMRoleLabel value]⟩

/-- The function `Client.LinkAccountRole`; `resp` is the answer of the `Get` of the
account's `sts_user_role` label, `buildFails` tells whether `Build()` returns an
error, `addErr` whether the `Add` fails (the error is then built from the answer of the
`Get`, as in the source). -/
def LinkAccountRole (resp : Response) (buildFails : Bool) (addErr : Bool)
    (roleARN : String) : Outcome (Option Error) :=
  if resp.isErr && resp.Status != 404 then
    if resp.Status = 403 then ⟨some .forbiddenUser, []⟩
    else ⟨some (.handled resp.ErrorStatus), []⟩
  else
    let existingARN := resp.Value
    let exists_ := existingARN ≠ "" && (stringsSplit existingARN ',').contains roleARN
    if exists_ then ⟨none, []⟩
    else
      let value := if existingARN ≠ "" then existingARN ++ "," ++ roleARN else roleARN
      if buildFails then ⟨some .buildErr, []⟩
      else if addErr then ⟨some (.handled resp.ErrorStatus), [.Add USERRoleLabel value]⟩
      else ⟨none, [.Add USERRoleLabel value]⟩

/-- The function `Client.GetAccountLinkedUserRoles`. -/
def GetAccountLinkedUserRoles (resp : Response) : List String × Option Error :=
  if resp.isErr && resp.Status != 404 then ([], some (.handled resp.ErrorStatus))
  else (stringsSplit resp.Value ',', none)

/-- The function `Client.GetOrganizationLinkedOCMRoles`. -/
def GetOrganizationLinkedOCMRoles (resp : Response) : List String × Option Error :=
  if resp.isErr && resp.Status != 404 then ([], some (.sendErr resp.Status))
  else (stringsSplit resp.Value ',', none)

/-- The part of both `Unlink` functions after the linked roles were fetched without
error; `notLinked` is the user error of the scope. -/
def unlinkFrom (key : String) (notLinked : Error) (linkedRoles : List String)
    (buildFails : Bool) (writeErr : Option Nat) (roleARN : String) : Outcome (Option Error) :=
  if Contains linkedRoles roleARN then
    let linkedRoles := RemoveStrFromSlice linkedRoles roleARN
    if linkedRoles.length > 0 then
      let newRoleARN := stringsJoin linkedRoles ','
      if buildFails then ⟨some .buildErr, []⟩
      else
        match writeErr with
        | some status => ⟨some (.handled status), [.Update key newRoleARN]⟩
        | none => ⟨none, [.Update key newRoleARN]⟩
    else
      match writeErr with
      | some status => ⟨some (.handled status), [.Delete key]⟩
      | none => ⟨none, [.Delete key]⟩
  else ⟨some notLinked, []⟩

/-- The function `Client.UnlinkUserRoleFromAccount`; `buildFails` tells whether the
`Build()` of the reduced label returns an error, `writeErr` is the status of a failing
`Update` or `Delete` (none when it succeeds). -/
def UnlinkUserRoleFromAccount (resp : Response) (buildFails : Bool) (writeErr : Option Nat)
    (accountID roleARN : String) : Outcome (Option Error) :=
  match GetAccountLinkedUserRoles resp with
  | (_, some err) => ⟨some err, []⟩
  | (linkedRoles, none) =>
    unlinkFrom USERRoleLabel (.userNotLinkedAccount roleARN accountID) linkedRoles buildFails
      writeErr roleARN

/-- The function `Client.UnlinkOCMRoleFromOrg`. -/
def UnlinkOCMRoleFromOrg (resp : Response) (buildFails : Bool) (writeErr : Option Nat)
    (orgID roleARN : String) : Outcome (Option Error) :=
  match GetOrganizationLinkedOCMRoles resp with
  | (_, some err) => ⟨some err, []⟩
  | (linkedRoles, none) =>
    unlinkFrom OCMRoleLabel (.userNotLinkedOrg roleARN orgID) linkedRoles buildFails writeErr
      roleARN

/-! ## The remote store of one scope -/

/-- Modelled from the spec: the control-plane label store of one scope and one key
(the remote service is not part of the repository).  The label is absent or has a
value; `Get` of an absent label answers 404 ("not-found"); `Add` writes the label,
"creating it if absent"; `Update` writes the value; `Delete` removes the label. -/
def fetch : Option String → Response
  | none => .failed 404
  | some value => .ok value

/-- Modelled from the spec: the effect of one successful label write on the store. -/
def applyCall : Option String → LabelCall → Option String
  | _, .Add _ value => some value
  | _, .Update _ value => some value
  | _, .Delete _ => none

/-- The store after a sequence of successful writes. -/
def applyCalls (store : Option String) (calls : List LabelCall) : Option String :=
  calls.foldl applyCall store

/-- One `LinkOrgToRole` against a store whose writes (and builds) succeed: the Go
result and the store afterwards. -/
def linkOrgStep (store : Option String) (orgID roleARN : String) :
    (Bool × Option Error) × Option String :=
  let out := LinkOrgToRole (fetch store) false none orgID roleARN
  (out.result, applyCalls store out.calls)

/-- One `LinkAccountRole` against a store whose writes succeed. -/
def linkAccountStep (store : Option String) (roleARN : String) :
    Option Error × Option String :=
  let out := LinkAccountRole (fetch store) false false roleARN
  (out.result, applyCalls store out.calls)

/-- One `UnlinkOCMRoleFromOrg` against a store whose writes succeed. -/
def unlinkOrgStep (store : Option String) (orgID roleARN : String) :
    Option Error × Option String :=
  let out := UnlinkOCMRoleFromOrg (fetch store) false none orgID roleARN
  (out.result, applyCalls store out.calls)

/-- One `UnlinkUserRoleFromAccount` against a store whose writes succeed. -/
def unlinkAccountStep (store : Option String) (accountID roleARN : String) :
    Option Error × Option String :=
  let out := UnlinkUserRoleFromAccount (fetch store) false none accountID roleARN
  (out.result, applyCalls store out.calls)

/-- The account-ID of a member, when `arn.Parse` accepts it. -/
def accountIDOf (value : String) : Option String :=
  match Parse value with
  | .ok parsedARN => some parsedARN.AccountID
  | .error _ => none

/-- A well-formed ARN: `arn.Parse` accepts it. -/
def WellFormed (value : String) : Prop := (accountIDOf value).isSome

instance (value : String) : Decidable (WellFormed value) := by
  unfold WellFormed; infer_instance

/-- The members of a stored label value: `strings.Split(value, ",")`. -/
def members (value : String) : List String := stringsSplit value ','

/-- The stored set of a scope: no member for an absent label, the members of the
value otherwise. -/
def storedMembers : Option String → List String
  | none => []
  | some value => members value

/-- A string without the separator of the label encoding. -/
def NoComma (value : String) : Prop := ',' ∉ value.data

instance (value : String) : Decidable (NoComma value) := by
  unfold NoComma; infer_instance

/-- The registry invariant of an organization's label: the label is absent, or its
members are well-formed ARNs with pairwise distinct account-IDs. -/
def RegistryInv : Option String → Prop
  | none => True
  | some value =>
    (∀ m ∈ members value, WellFormed m) ∧ ((members value).map accountIDOf).Nodup

/-- States of an organization's label reached from a state of the invariant by
successful `LinkOrgToRole` calls with comma-free role ARNs and by `UnlinkOCMRoleFromOrg`
calls with any role ARN. -/
inductive Reachable : Option String → Prop where
  | start (store : Option String) (h : RegistryInv store) : Reachable store
  | link (store : Option String) (orgID roleARN : String) (h : Reachable store)
      (hcomma : NoComma roleARN) (hok : (linkOrgStep store orgID roleARN).1.2 = none) :
      Reachable (linkOrgStep store orgID roleARN).2
  | unlink (store : Option String) (orgID roleARN : String) (h : Reachable store) :
      Reachable (unlinkOrgStep store orgID roleARN).2

/-- Linking a sequence of role ARNs in order against a store whose writes succeed:
the results of the calls and the store afterwards. -/
def linkAll (orgID : String) :
    Option String → List String → List (Bool × Option Error) × Option String
  | store, [] => ([], store)
  | store, roleARN :: rest =>
    let r := linkOrgStep store orgID roleARN
    let rs := linkAll orgID r.2 rest
    (r.1 :: rs.1, rs.2)

/-! ## `cmd/create/admin/cmd.go`: the admin saga -/

/-- Modelled from the spec: `idp.ClusterAdminUsername` (package `cmd/create/idp` is
not among the sources), the fixed admin username `cluster-admin`. -/
def ClusterAdminUsername : String := "cluster-admin"

/-- Modelled from the spec: `idp.HasClusterAdmin`, whether the user list of the
existing HTPasswd provider "already contains the fixed admin username". -/
def HasClusterAdmin (existingUserList : List String) : Bool :=
  existingUserList.contains ClusterAdminUsername

/-- Modelled from the spec: `idp.CreateHTPasswdUser(username, password)` (package
`cmd/create/idp` is not among the sources), the entry of the new provider: "a new
provider containing exactly the admin entry", a username with its password. -/
def CreateHTPasswdUser (username password : String) : String × String :=
  (username, password)

/-- A mutating call of the saga to the control-plane client. -/
inductive ClientCall where
  | CreateUser (clusterID group userID : String)
  /-- Go `CreateIdentityProvider(clusterID, newIDP)` with the name and the HTPasswd users
  (username, password) of the provider that was built. -/
  | CreateIdentityProvider (clusterID name : String) (users : List (String × String))
  | AddHTPasswdUser (username password clusterID idpID : String)
  | DeleteUser (clusterID group userID : String)
  deriving DecidableEq, Repr

/-- Everything one execution of `run` reads from outside. -/
structure RunInput where
  /-- Go `r.GetClusterKey()`. -/
  clusterKey : String
  /-- Go `cluster.ID()`. -/
  clusterID : String
  /-- Go `cluster.API().URL()`. -/
  apiURL : String
  /-- Go `cluster.State() == cmv1.ClusterStateReady`. -/
  clusterReady : Bool
  /-- First result of `idp.FindExistingHTPasswdIDP`: the ID of the provider, none for nil. -/
  existingHTPasswdIDP : Option String
  /-- Second result of `idp.FindExistingHTPasswdIDP`: the usernames of that provider. -/
  existingUserList : List String
  /-- Go `idp.HTPasswdIDPName`. -/
  idpName : String
  /-- Go `args.passwordArg`. -/
  passwordArg : String
  /-- Result of `generateRandomPassword(23)`: none when it returns an error. -/
  generated : Option String
  /-- Go `cmv1.NewUser().ID(..).Build()` returns an error. -/
  userBuildFails : Bool
  /-- Go `CreateUser` returns an error. -/
  createUserFails : Bool
  /-- Go `cmv1.NewIdentityProvider()...Build()` returns an error. -/
  idpBuildFails : Bool
  /-- Go `CreateIdentityProvider` returns an error. -/
  createIDPFails : Bool
  /-- Go `AddHTPasswdUser` returns an error. -/
  addUserFails : Bool
  /-- Go `DeleteUser` returns an error. -/
  deleteUserFails : Bool
  /-- Go `output.HasFlag()`. -/
  hasOutputFlag : Bool
  /-- Go `output.Print` returns an error. -/
  printFails : Bool
  deriving DecidableEq, Repr

/-- What one execution of `run` did. -/
structure RunResult where
  /-- The mutating client calls, in order. -/
  calls : List ClientCall
  /-- Exit code: 1 for `os.Exit(1)`, 0 for a normal return. -/
  exitCode : Nat
  /-- The object given to `output.Print`, as its key/value pairs. -/
  printed : Option (List (String × String))
  /-- The arguments (api_url, username, password) of the login guidance. -/
  guidance : Option (String × String × String)
  deriving DecidableEq, Repr

/-- An execution ending in `os.Exit(1)` after the given calls. -/
def exitFailure (calls : List ClientCall) : RunResult := ⟨calls, 1, none, none⟩

/-- The end of `run` after the provider step succeeded (lines 164 to 188). -/
def finish (i : RunInput) (password : String) (calls : List ClientCall) : RunResult :=
  let outputObject := [("api_url", i.apiURL), ("username", ClusterAdminUsername),
    ("password", password)]
  if i.hasOutputFlag then
    let outputObject :=
      if i.passwordArg.length ≠ 0 then outputObject.filter (fun kv => kv.1 ≠ "password")
      else outputObject
    if i.printFails then ⟨calls, 1, some outputObject, none⟩
    else ⟨calls, 0, some outputObject, none⟩
  else ⟨calls, 0, none, some (i.apiURL, ClusterAdminUsername, password)⟩

/-- The function `run` of the admin command. -/
def run (i : RunInput) : RunResult :=
  if !i.clusterReady then exitFailure []
  else if HasClusterAdmin i.existingUserList then exitFailure []
  else
    let resolved : Option String :=
      if i.passwordArg.length = 0 then i.generated else some i.passwordArg
    match resolved with
    | none => exitFailure []
    | some password =>
      if i.userBuildFails then exitFailure []
      else
        let create := ClientCall.CreateUser i.clusterID "cluster-admins" ClusterAdminUsername
        let delete := ClientCall.DeleteUser i.clusterID "cluster-admins" ClusterAdminUsername
        if i.createUserFails then exitFailure [create]
        else
          match i.existingHTPasswdIDP with
          | none =>
            if i.idpBuildFails then exitFailure [create]
            else
              let createIDP := ClientCall.CreateIdentityProvider i.clusterID i.idpName
                [CreateHTPasswdUser ClusterAdminUsername password]
              if i.createIDPFails then exitFailure [create, createIDP, delete]
              else finish i password [create, createIDP]
          | some idpID =>
            let addUser := ClientCall.AddHTPasswdUser ClusterAdminUsername password i.clusterID
              idpID
            if i.addUserFails then exitFailure [create, addUser, delete]
            else finish i password [create, addUser]

/-! ## Go calls that may panic -/

/-- Outcome of a Go call that either returns or panics (index or slice bound out of
range). -/
inductive Run (α : Type) where
  | returned (value : α)
  | panicked
  deriving DecidableEq, Repr

/-! ## `github.com/zgalor/weberr`: error types -/

/-- The error type `errors.Forbidden` of `weberr`, whose error types are the HTTP
status codes (`handleErr` builds a type with `errors.ErrorType(res.Status())`). -/
def Forbidden : Nat := 403

/-- Go `errors.GetType(err)`: the type given by `handleErr` or by
`errors.Forbidden.UserErrorf`; `NoType` (0) for `errors.UserErrorf` and for every error
that was not built by `weberr` (the error of `arn.Parse`, of a builder, of `Send()`). -/
def Error.GetType : Error → Nat
  | .forbiddenUser => Forbidden
  | .handled status => status
  | .arnInvalidStart => 0
  | .arnNotEnoughSections => 0
  | .userConflict _ _ => 0
  | .userNotLinkedAccount _ _ => 0
  | .userNotLinkedOrg _ _ => 0
  | .sendErr _ => 0
  | .buildErr => 0

/-! ## `pkg/ocm/helpers.go`: `CheckRoleExists` -/

/-- The function `Client.CheckRoleExists`; `resp` is the answer of the `Get` inside
`CheckIfAWSAccountExists`.  The index expression `existingRole[1]` panics when
`strings.SplitN(selectedARN, "/", 2)` has a single element. -/
def CheckRoleExists (resp : Response) (roleName awsAccountID : String) :
    Run (Bool × String × String × Option Error) :=
  match CheckIfAWSAccountExists resp awsAccountID with
  | (_, _, _, some err) => .returned (false, "", "", some err)
  | (exists_, _, selectedARN, none) =>
    if !exists_ then .returned (false, "", "", none)
    else
      let existingRole := stringsSplitN selectedARN '/' 2
      if existingRole.length > 1 && existingRole[1]? == some roleName then
        .returned (false, "", "", none)
      else
        match existingRole[1]? with
        | some name => .returned (true, name, selectedARN, none)
        | none => .panicked

/-! ## `cmd/create/admin/cmd.go`: `generateRandomPassword` -/

/-- The constant `lowerLetters`. -/
def lowerLetters : String := "abcdefghijkmnopqrstuvwxyz"

/-- The constant `upperLetters`. -/
def upperLetters : String := "ABCDEFGHIJKLMNPQRSTUVWXYZ"

/-- The constant `digits`. -/
def digits : String := "23456789"

/-- The constant `all`, the alphabet of the generator. -/
def all : String := lowerLetters ++ upperLetters ++ digits

/-- The first loop of `generateRandomPassword`, with `n` iterations left before
iteration `i`.  `chars i` is the outcome of the first `rand.Int` of iteration `i` (the
index of the character), `positions i` the outcome of the second one (the place of
insertion); none stands for an error of `rand.Int`.  The result is none when the
function returns an error. -/
def genLoop (length : Nat) (chars positions : Nat → Option Nat) :
    Nat → Nat → List Char → Run (Option (List Char))
  | 0, _, password => .returned (some password)
  | n + 1, i, password =>
    match chars i with
    | none => .returned none
    | some c =>
      match all.data[c]? with
      | none => .panicked
      | some newchar =>
        let password := if password = [] then [newchar] else password
        if i < length - 1 then
          match positions i with
          | none => .returned none
          | some j =>
            if j ≤ password.length then
              genLoop length chars positions n (i + 1)
                (password.take j ++ newchar :: password.drop j)
            else .panicked
        else genLoop length chars positions n (i + 1) password

/-- The password at the end of the first loop, before the separators are written. -/
def rawPassword (length : Nat) (chars positions : Nat → Option Nat) :
    Run (Option (List Char)) :=
  genLoop length chars positions length 0 []

/-- The second loop of `generateRandomPassword`: `pw[replace] = '-'` for each index,
none when an index is out of range (the assignment panics). -/
def writeSeparators : List Nat → List Char → Option (List Char)
  | [], pw => some pw
  | replace :: rest, pw =>
    if replace < pw.length then writeSeparators rest (pw.set replace '-') else none

/-- The function `generateRandomPassword`, for a length that is not negative: none
inside `returned` stands for `("", err)`. -/
def generateRandomPassword (length : Nat) (chars positions : Nat → Option Nat) :
    Run (Option String) :=
  match rawPassword length chars positions with
  | .panicked => .panicked
  | .returned none => .returned none
  | .returned (some password) =>
    match writeSeparators [5, 11, 17] password with
    | none => .panicked
    | some pw => .returned (some (String.mk pw))

/-- The character drawn in iteration `i`: `all[n]` for the number `n` drawn. -/
def drawnChar (chars : Nat → Option Nat) (i : Nat) : Option Char :=
  match chars i with
  | none => none
  | some n => all.data[n]?

/-! ## Go `regexp`, as far as `clusterNameRE` needs it -/

/-- Regular expressions over characters: the empty expression, a character class, a
concatenation and the optional `a?`. -/
inductive Regexp where
  | empty
  | cls (p : Char → Bool)
  | seq (a b : Regexp)
  | opt (a : Regexp)

/-- The bounded repetition `a{0,n}`, which is `(a(a(...)?)?)?` with `n` copies. -/
def Regexp.repeatUpTo (a : Regexp) : Nat → Regexp
  | 0 => .empty
  | n + 1 => .opt (.seq a (Regexp.repeatUpTo a n))

/-- Backtracking matcher: whether some part at the start of `s` matches the expression
and the continuation `k` accepts what follows. -/
def Regexp.matchK : Regexp → List Char → (List Char → Bool) → Bool
  | .empty, s, k => k s
  | .cls _, [], _ => false
  | .cls p, c :: cs, k => p c && k cs
  | .seq a b, s, k => Regexp.matchK a s (fun rest => Regexp.matchK b rest k)
  | .opt a, s, k => Regexp.matchK a s k || k s

/-- Go `re.MatchString(s)` for an expression written between `^` and `$`: without the
flag `m`, `^` is the start and `$` the end of the text, so the expression must match the
whole string. -/
def Regexp.MatchString (re : Regexp) (s : String) : Bool :=
  re.matchK s.data (fun rest => rest.isEmpty)

/-- The strings an expression denotes. -/
def Regexp.Lang : Regexp → List Char → Prop
  | .empty, s => s = []
  | .cls p, s => ∃ c, s = [c] ∧ p c = true
  | .seq a b, s => ∃ s1 s2, s = s1 ++ s2 ∧ Regexp.Lang a s1 ∧ Regexp.Lang b s2
  | .opt a, s => s = [] ∨ Regexp.Lang a s

/-- The class `[a-z]`. -/
def isLowerLetter (c : Char) : Bool := decide ('a' ≤ c ∧ c ≤ 'z')

/-- The class `[a-z0-9]`. -/
def isLowerOrDigit (c : Char) : Bool :=
  isLowerLetter c || decide ('0' ≤ c ∧ c ≤ '9')

/-- The class `[-a-z0-9]`. -/
def isNameChar (c : Char) : Bool := c == '-' || isLowerOrDigit c

/-- The constant `maxClusterNameLength`. -/
def maxClusterNameLength : Nat := 15

/-- The variable `clusterNameRE`, the expression `^[a-z]([-a-z0-9]{0,13}[a-z0-9])?$`. -/
def clusterNameRE : Regexp :=
  .seq (.cls isLowerLetter)
    (.opt (.seq (Regexp.repeatUpTo (.cls isNameChar) 13) (.cls isLowerOrDigit)))

/-- The function `IsValidClusterName`. -/
def IsValidClusterName (clusterName : String) : Bool :=
  clusterNameRE.MatchString clusterName

/-! ## Facts about splitting and joining -/

theorem splitChars_ne_nil (sep : Char) (s : List Char) : splitChars sep s ≠ [] := by
  induction s with
  | nil => simp [splitChars]
  | cons c cs ih =>
    unfold splitChars
    split
    · simp
    · split <;> simp

theorem splitChars_cons_sep (sep : Char) (cs : List Char) :
    splitChars sep (sep :: cs) = [] :: splitChars sep cs := by
  simp [splitChars]

theorem splitChars_cons_ne (sep c : Char) (cs : List Char) (h : c ≠ sep) :
    ∃ hd tl, splitChars sep cs = hd :: tl ∧ splitChars sep (c :: cs) = (c :: hd) :: tl := by
  cases hs : splitChars sep cs with
  | nil => exact absurd hs (splitChars_ne_nil sep cs)
  | cons hd tl => exact ⟨hd, tl, rfl, by simp [splitChars, h, hs]⟩

theorem splitChars_of_not_mem (sep : Char) (s : List Char) (h : sep ∉ s) :
    splitChars sep s = [s] := by
  induction s with
  | nil => rfl
  | cons c cs ih =>
    have hc : c ≠ sep := fun e => h (by simp [e])
    have hcs : sep ∉ cs := fun e => h (by simp [e])
    simp [splitChars, hc, ih hcs]

theorem splitChars_append_sep (sep : Char) (v a : List Char) (h : sep ∉ a) :
    splitChars sep (v ++ sep :: a) = splitChars sep v ++ [a] := by
  induction v with
  | nil => simp [splitChars, splitChars_of_not_mem sep a h]
  | cons c cs ih =>
    by_cases hc : c = sep
    · subst hc
      simp [splitChars_cons_sep, ih]
    · obtain ⟨hd, tl, h1, h2⟩ := splitChars_cons_ne sep c cs hc
      have h3 : splitChars sep (c :: (cs ++ sep :: a)) = (c :: hd) :: (tl ++ [a]) := by
        simp [splitChars, hc, ih, h1]
      simpa [h2] using h3

theorem not_mem_of_mem_splitChars (sep : Char) (s x : List Char)
    (hx : x ∈ splitChars sep s) : sep ∉ x := by
  induction s generalizing x with
  | nil => simp [splitChars] at hx; simp [hx]
  | cons c cs ih =>
    by_cases hc : c = sep
    · subst hc
      rw [splitChars_cons_sep] at hx
      rcases List.mem_cons.mp hx with h | h
      · simp [h]
      · exact ih x h
    · obtain ⟨hd, tl, h1, h2⟩ := splitChars_cons_ne sep c cs hc
      rw [h2] at hx
      rcases List.mem_cons.mp hx with h | h
      · subst h
        have := ih hd (by simp [h1])
        intro hm
        rcases List.mem_cons.mp hm with e | e
        · exact hc e.symm
        · exact this e
      · exact ih x (by simp [h1, h])

theorem splitChars_joinChars (sep : Char) (xs : List (List Char)) (hne : xs ≠ [])
    (h : ∀ x ∈ xs, sep ∉ x) : splitChars sep (joinChars sep xs) = xs := by
  induction xs with
  | nil => exact absurd rfl hne
  | cons x rest ih =>
    cases rest with
    | nil => simpa [joinChars] using splitChars_of_not_mem sep x (h x (by simp))
    | cons y rest =>
      have hx : sep ∉ x := h x (by simp)
      have ih2 := ih (by simp) (fun z hz => h z (by simp [hz]))
      have key : ∀ (w : List Char), sep ∉ w → ∀ t, splitChars sep (w ++ sep :: t)
          = w :: splitChars sep t := by
        intro w hw t
        induction w with
        | nil => simp [splitChars]
        | cons c cs ihw =>
          have hc : c ≠ sep := fun e => hw (by simp [e])
          have hcs : sep ∉ cs := fun e => hw (by simp [e])
          simp [splitChars, hc, ihw hcs]
      simp only [joinChars]
      rw [key x hx, ih2]

/-! ## Members of a label value -/

theorem members_ne_nil (v : String) : members v ≠ [] := by
  simp [members, stringsSplit, splitChars_ne_nil]

theorem members_of_noComma (a : String) (h : NoComma a) : members a = [a] := by
  simp [members, stringsSplit, splitChars_of_not_mem ',' a.data h]

theorem members_append (v a : String) (h : NoComma a) :
    members (v ++ "," ++ a) = members v ++ [a] := by
  have hd : (v ++ "," ++ a).data = v.data ++ ',' :: a.data := by
    simp [String.data_append]
  simp [members, stringsSplit, hd, splitChars_append_sep ',' v.data a.data h]

theorem noComma_of_mem_members (v x : String) (hx : x ∈ members v) : NoComma x := by
  simp only [members, stringsSplit, List.mem_map] at hx
  obtain ⟨cs, hcs, rfl⟩ := hx
  exact not_mem_of_mem_splitChars ',' v.data cs hcs

theorem members_join (xs : List String) (hne : xs ≠ []) (h : ∀ x ∈ xs, NoComma x) :
    members (stringsJoin xs ',') = xs := by
  have h1 : splitChars ',' (joinChars ',' (xs.map String.data)) = xs.map String.data := by
    apply splitChars_joinChars
    · simpa using hne
    · intro cs hcs
      obtain ⟨x, hx, rfl⟩ := List.mem_map.mp hcs
      exact h x hx
  have h2 : (String.mk ∘ String.data) = id := by
    funext x
    rfl
  simp [members, stringsSplit, stringsJoin, h1, h2]

theorem members_empty : members "" = [""] := by decide

theorem not_wellFormed_empty : ¬ WellFormed "" := by decide

theorem ne_empty_of_wellFormed_members (v : String) (h : ∀ m ∈ members v, WellFormed m) :
    v ≠ "" := by
  rintro rfl
  exact not_wellFormed_empty (h "" (by simp [members_empty]))

theorem accountIDOf_eq_some (value acct : String) :
    accountIDOf value = some acct ↔ ∃ p, Parse value = .ok p ∧ p.AccountID = acct := by
  unfold accountIDOf
  cases h : Parse value <;> simp

theorem wellFormed_iff (value : String) : WellFormed value ↔ ∃ p, Parse value = .ok p := by
  unfold WellFormed accountIDOf
  cases h : Parse value <;> simp

/-! ## The loop of `CheckIfAWSAccountExists` -/

/-- On well-formed members the loop finds the first member of the account. -/
theorem checkLoop_wellFormed (existingARN acct : String) (ms : List String)
    (h : ∀ m ∈ ms, WellFormed m) :
    checkLoop existingARN acct ms =
      match ms.find? (fun m => decide (accountIDOf m = some acct)) with
      | some m => (true, existingARN, m, none)
      | none => (false, existingARN, "", none) := by
  induction ms with
  | nil => rfl
  | cons m rest ih =>
    obtain ⟨p, hp⟩ := (wellFormed_iff m).mp (h m (by simp))
    have hacc : accountIDOf m = some p.AccountID := by simp [accountIDOf, hp]
    by_cases hm : p.AccountID = acct
    · simp [checkLoop, hp, hm, List.find?, hacc]
    · have : ¬ (accountIDOf m = some acct) := by simp [hacc, hm]
      simp [checkLoop, hp, hm, List.find?, this, ih (fun x hx => h x (by simp [hx]))]

/-- The loop passes over a run of well-formed members of other accounts. -/
theorem checkLoop_append (existingARN acct : String) (ms rest : List String)
    (h : ∀ m ∈ ms, WellFormed m ∧ accountIDOf m ≠ some acct) :
    checkLoop existingARN acct (ms ++ rest) = checkLoop existingARN acct rest := by
  induction ms with
  | nil => rfl
  | cons m ms ih =>
    obtain ⟨hw, hne⟩ := h m (by simp)
    obtain ⟨p, hp⟩ := (wellFormed_iff m).mp hw
    have hm : p.AccountID ≠ acct := by
      intro e
      exact hne ((accountIDOf_eq_some m acct).mpr ⟨p, hp, e⟩)
    simp [checkLoop, hp, hm, ih (fun x hx => h x (by simp [hx]))]

/-- When the loop ends without error and without a match, every member is well-formed
and of another account. -/
theorem checkLoop_none (existingARN acct : String) (ms : List String) (e s : String)
    (h : checkLoop existingARN acct ms = (false, e, s, none)) :
    ∀ m ∈ ms, WellFormed m ∧ accountIDOf m ≠ some acct := by
  induction ms with
  | nil => simp
  | cons m rest ih =>
    cases hp : Parse m with
    | error err => simp [checkLoop, hp] at h
    | ok p =>
      by_cases hm : p.AccountID = acct
      · simp [checkLoop, hp, hm] at h
      · simp only [checkLoop, hp, hm, if_false] at h
        intro x hx
        rcases List.mem_cons.mp hx with rfl | hx
        · refine ⟨(wellFormed_iff _).mpr ⟨p, hp⟩, ?_⟩
          simp [accountIDOf, hp, hm]
        · exact ih h x hx

/-- When the loop finds a member, that member is in the list and of the account. -/
theorem checkLoop_found (existingARN acct : String) (ms : List String) (e s : String)
    (h : checkLoop existingARN acct ms = (true, e, s, none)) :
    s ∈ ms ∧ accountIDOf s = some acct := by
  induction ms with
  | nil => simp [checkLoop] at h
  | cons m rest ih =>
    cases hp : Parse m with
    | error err => simp [checkLoop, hp] at h
    | ok p =>
      by_cases hm : p.AccountID = acct
      · simp only [checkLoop, hp, hm, if_true, Prod.mk.injEq, true_and] at h
        obtain ⟨-, rfl, -⟩ := h
        exact ⟨by simp, (accountIDOf_eq_some _ _).mpr ⟨p, hp, hm⟩⟩
      · simp only [checkLoop, hp, hm, if_false] at h
        obtain ⟨h1, h2⟩ := ih h
        exact ⟨by simp [h1], h2⟩

theorem CheckIfAWSAccountExists_some (v acct : String) (hv : v ≠ "") :
    CheckIfAWSAccountExists (fetch (some v)) acct = checkLoop v acct (members v) := by
  simp [CheckIfAWSAccountExists, fetch, Response.isErr, Response.Value, hv, members]

theorem CheckIfAWSAccountExists_none (acct : String) :
    CheckIfAWSAccountExists (fetch none) acct = (false, "", "", none) := by
  simp [CheckIfAWSAccountExists, fetch, Response.isErr, Response.Status, Response.Value]

theorem CheckIfAWSAccountExists_empty (acct : String) :
    CheckIfAWSAccountExists (fetch (some "")) acct = (false, "", "", none) := by
  simp [CheckIfAWSAccountExists, fetch, Response.isErr, Response.Value]

/-! ## One step of `LinkOrgToRole` and of `UnlinkOCMRoleFromOrg` on a store -/

theorem append_comma_ne_empty (v a : String) : v ++ "," ++ a ≠ "" := by
  intro h
  have hd : (v ++ "," ++ a).data = v.data ++ ',' :: a.data := by
    simp [String.data_append]
  have h2 : (v ++ "," ++ a).data = [] := by rw [h]
  rw [hd] at h2
  simp at h2

/-- Linking a well-formed, comma-free role ARN of a new account appends it. -/
theorem linkOrgStep_fresh (store : Option String) (orgID a : String)
    (hwf : ∀ m ∈ storedMembers store, WellFormed m) (ha : WellFormed a) (hc : NoComma a)
    (hnew : accountIDOf a ∉ (storedMembers store).map accountIDOf) :
    ∃ v, linkOrgStep store orgID a = ((true, none), some v) ∧
      members v = storedMembers store ++ [a] := by
  obtain ⟨p, hp⟩ := (wellFormed_iff a).mp ha
  have hacc : accountIDOf a = some p.AccountID := by simp [accountIDOf, hp]
  cases store with
  | none =>
    refine ⟨a, ?_, by simp [storedMembers, members_of_noComma a hc]⟩
    simp [linkOrgStep, LinkOrgToRole, hp, CheckIfAWSAccountExists_none, applyCalls, applyCall]
  | some v =>
    have hv := ne_empty_of_wellFormed_members v hwf
    have hall : ∀ m ∈ members v, WellFormed m ∧ accountIDOf m ≠ some p.AccountID := by
      intro m hm
      refine ⟨hwf m hm, fun e => hnew ?_⟩
      rw [hacc, ← e]
      exact List.mem_map_of_mem accountIDOf hm
    have hchk : CheckIfAWSAccountExists (fetch (some v)) p.AccountID = (false, v, "", none) := by
      rw [CheckIfAWSAccountExists_some v _ hv]
      have := checkLoop_append v p.AccountID (members v) [] hall
      simpa [checkLoop] using this
    refine ⟨v ++ "," ++ a, ?_, by simp [storedMembers, members_append v a hc]⟩
    simp [linkOrgStep, LinkOrgToRole, hp, hchk, hv, applyCalls, applyCall]

/-- A successful `LinkOrgToRole` with a comma-free role ARN keeps the invariant. -/
theorem linkOrgStep_inv (store : Option String) (orgID a : String)
    (hinv : RegistryInv store) (hc : NoComma a)
    (hok : (linkOrgStep store orgID a).1.2 = none) :
    RegistryInv (linkOrgStep store orgID a).2 := by
  cases hp : Parse a with
  | error err => simp [linkOrgStep, LinkOrgToRole, hp] at hok
  | ok p =>
    have ha : WellFormed a := (wellFormed_iff a).mpr ⟨p, hp⟩
    have hacc : accountIDOf a = some p.AccountID := by simp [accountIDOf, hp]
    have hwf : ∀ m ∈ storedMembers store, WellFormed m := by
      cases store with
      | none => simp [storedMembers]
      | some v => exact hinv.1
    have hnd : ((storedMembers store).map accountIDOf).Nodup := by
      cases store with
      | none => simp [storedMembers]
      | some v => exact hinv.2
    by_cases hnew : accountIDOf a ∈ (storedMembers store).map accountIDOf
    · -- the account is present: no write is sent
      cases store with
      | none => simp [storedMembers] at hnew
      | some v =>
        have hv := ne_empty_of_wellFormed_members v hwf
        obtain ⟨m, hm, hmacc⟩ := List.mem_map.mp hnew
        have hsome : ((members v).find?
            (fun m => decide (accountIDOf m = some p.AccountID))).isSome := by
          rw [List.find?_isSome]
          exact ⟨m, hm, by simp [hmacc, hacc]⟩
        obtain ⟨sel, hsel⟩ := Option.isSome_iff_exists.mp hsome
        have hchk : CheckIfAWSAccountExists (fetch (some v)) p.AccountID
            = (true, v, sel, none) := by
          rw [CheckIfAWSAccountExists_some v _ hv, checkLoop_wellFormed v _ _ hinv.1, hsel]
        have hsame : (linkOrgStep (some v) orgID a).2 = some v := by
          by_cases hne : sel = a <;>
            simp [linkOrgStep, LinkOrgToRole, hp, hchk, hne, applyCalls]
        rw [hsame]
        exact hinv
    · obtain ⟨v, hstep, hmem⟩ := linkOrgStep_fresh store orgID a hwf ha hc hnew
      rw [hstep]
      refine ⟨?_, ?_⟩
      · intro m hm
        rw [hmem] at hm
        rcases List.mem_append.mp hm with h | h
        · exact hwf m h
        · simp at h
          exact h ▸ ha
      · rw [hmem, List.map_append, List.nodup_append]
        refine ⟨hnd, by simp, ?_⟩
        intro x hx1 hx2
        simp at hx2
        exact hnew (hx2 ▸ hx1)

/-- The list given to `unlinkFrom` by `UnlinkOCMRoleFromOrg` against a store. -/
theorem GetOrganizationLinkedOCMRoles_fetch (store : Option String) :
    GetOrganizationLinkedOCMRoles (fetch store)
      = (members (fetch store).Value, none) := by
  cases store <;>
    simp [GetOrganizationLinkedOCMRoles, fetch, Response.isErr, Response.Status, members]

theorem GetAccountLinkedUserRoles_fetch (store : Option String) :
    GetAccountLinkedUserRoles (fetch store)
      = (members (fetch store).Value, none) := by
  cases store <;>
    simp [GetAccountLinkedUserRoles, fetch, Response.isErr, Response.Status, members]

theorem Contains_iff (linked : List String) (a : String) :
    Contains linked a = true ↔ a ∈ linked := by
  simp [Contains, List.contains, List.elem_iff]

/-- The function `Unlink` of a string that is not in the fetched list. -/
theorem unlinkFrom_not_mem (key : String) (notLinked : Error) (linked : List String)
    (buildFails : Bool) (writeErr : Option Nat) (a : String) (h : a ∉ linked) :
    unlinkFrom key notLinked linked buildFails writeErr a = ⟨some notLinked, []⟩ := by
  have hc : ¬ (Contains linked a = true) := fun e => h ((Contains_iff linked a).mp e)
  simp [unlinkFrom, hc]

/-- The function `Unlink` of the only remaining member. -/
theorem unlinkFrom_last (key : String) (notLinked : Error) (linked : List String)
    (buildFails : Bool) (writeErr : Option Nat) (a : String) (h : a ∈ linked)
    (hrest : RemoveStrFromSlice linked a = []) :
    unlinkFrom key notLinked linked buildFails writeErr a
      = ⟨writeErr.map Error.handled, [.Delete key]⟩ := by
  have hc : Contains linked a = true := (Contains_iff linked a).mpr h
  cases writeErr <;> simp [unlinkFrom, hc, hrest]

/-- The function `Unlink` of a member when other members remain. -/
theorem unlinkFrom_more (key : String) (notLinked : Error) (linked : List String)
    (writeErr : Option Nat) (a : String) (h : a ∈ linked)
    (hrest : RemoveStrFromSlice linked a ≠ []) :
    unlinkFrom key notLinked linked false writeErr a
      = ⟨writeErr.map Error.handled,
          [.Update key (stringsJoin (RemoveStrFromSlice linked a) ',')]⟩ := by
  have hc : Contains linked a = true := (Contains_iff linked a).mpr h
  have hlen : (RemoveStrFromSlice linked a).length > 0 := List.length_pos.mpr hrest
  cases writeErr <;> simp [unlinkFrom, hc, hlen]

/-- An `UnlinkOCMRoleFromOrg` with any role ARN keeps the invariant. -/
theorem unlinkOrgStep_inv (store : Option String) (orgID a : String)
    (hinv : RegistryInv store) : RegistryInv (unlinkOrgStep store orgID a).2 := by
  unfold unlinkOrgStep
  simp only [UnlinkOCMRoleFromOrg, GetOrganizationLinkedOCMRoles_fetch]
  by_cases hmem : a ∈ members (fetch store).Value
  · by_cases hrest : RemoveStrFromSlice (members (fetch store).Value) a = []
    · rw [unlinkFrom_last _ _ _ _ _ _ hmem hrest]
      simp [applyCalls, applyCall, RegistryInv]
    · rw [unlinkFrom_more _ _ _ _ _ hmem hrest]
      cases store with
      | none =>
        simp [fetch, Response.Value, members_empty] at hmem
        simp [fetch, Response.Value, members_empty, hmem, RemoveStrFromSlice] at hrest
      | some v =>
        simp only [fetch, Response.Value] at hmem hrest ⊢
        have hsub : (RemoveStrFromSlice (members v) a).Sublist (members v) :=
          List.erase_sublist a _
        have hnc : ∀ x ∈ RemoveStrFromSlice (members v) a, NoComma x := fun x hx =>
          noComma_of_mem_members v x (hsub.subset hx)
        show RegistryInv (some (stringsJoin (RemoveStrFromSlice (members v) a) ','))
        refine ⟨?_, ?_⟩
        · rw [members_join _ hrest hnc]
          intro m hm
          exact hinv.1 m (hsub.subset hm)
        · rw [members_join _ hrest hnc]
          exact List.Nodup.sublist (hsub.map accountIDOf) hinv.2
  · rw [unlinkFrom_not_mem _ _ _ _ _ _ hmem]
    simpa [applyCalls] using hinv

/-! ## Linking the same role twice, linking a sequence -/

theorem checkLoop_value (existingARN acct : String) (ms : List String) (ex : Bool)
    (e sel : String) (h : checkLoop existingARN acct ms = (ex, e, sel, none)) :
    e = existingARN := by
  induction ms with
  | nil =>
    simp only [checkLoop, Prod.mk.injEq] at h
    exact h.2.1.symm
  | cons m rest ih =>
    cases hp : Parse m with
    | error err => simp [checkLoop, hp] at h
    | ok p =>
      by_cases hm : p.AccountID = acct
      · simp only [checkLoop, hp, hm, if_true, Prod.mk.injEq] at h
        exact h.2.1.symm
      · simp only [checkLoop, hp, hm, if_false] at h
        exact ih h

/-- The check on a stored value that ends with the role itself finds the role. -/
theorem CheckIfAWSAccountExists_last (value a : String) (p : ARN) (front : List String)
    (hp : Parse a = .ok p) (hvalue : value ≠ "") (hmem : members value = front ++ [a])
    (hfront : ∀ m ∈ front, WellFormed m ∧ accountIDOf m ≠ some p.AccountID) :
    CheckIfAWSAccountExists (fetch (some value)) p.AccountID = (true, value, a, none) := by
  rw [CheckIfAWSAccountExists_some value _ hvalue, hmem, checkLoop_append _ _ _ _ hfront]
  simp [checkLoop, hp]

theorem ne_empty_of_parse (a : String) (p : ARN) (hp : Parse a = .ok p) : a ≠ "" := by
  rintro rfl
  exact not_wellFormed_empty ((wellFormed_iff "").mpr ⟨p, hp⟩)

/-- After a successful `LinkOrgToRole` of a comma-free role, a second one finds the role
linked and sends nothing. -/
theorem linkOrg_twice (store : Option String) (orgID a : String) (buildFails : Bool)
    (addErr : Option Nat) (hc : NoComma a)
    (hok : (linkOrgStep store orgID a).1.2 = none) :
    LinkOrgToRole (fetch (linkOrgStep store orgID a).2) buildFails addErr orgID a
      = ⟨(false, none), []⟩ := by
  cases hp : Parse a with
  | error err => simp [linkOrgStep, LinkOrgToRole, hp] at hok
  | ok p =>
    have hane := ne_empty_of_parse a p hp
    have hfound : ∀ value, CheckIfAWSAccountExists (fetch (some value)) p.AccountID
        = (true, value, a, none) →
        LinkOrgToRole (fetch (some value)) buildFails addErr orgID a = ⟨(false, none), []⟩ := by
      intro value h
      simp [LinkOrgToRole, hp, h]
    rcases hchk : CheckIfAWSAccountExists (fetch store) p.AccountID with ⟨ex, e, sel, oerr⟩
    cases oerr with
    | some err => simp [linkOrgStep, LinkOrgToRole, hp, hchk] at hok
    | none =>
      cases ex with
      | true =>
        by_cases hsel : sel = a
        · have h1 : (linkOrgStep store orgID a).2 = store := by
            simp [linkOrgStep, LinkOrgToRole, hp, hchk, hsel, applyCalls]
          rw [h1]
          simp [LinkOrgToRole, hp, hchk, hsel]
        · simp [linkOrgStep, LinkOrgToRole, hp, hchk, hsel] at hok
      | false =>
        have hstore : (linkOrgStep store orgID a).2
            = some (if e ≠ "" then e ++ "," ++ a else a) := by
          simp [linkOrgStep, LinkOrgToRole, hp, hchk, applyCalls, applyCall]
        rw [hstore]
        apply hfound
        by_cases he : e = ""
        · simp only [he, ne_eq, not_true_eq_false, if_false]
          exact CheckIfAWSAccountExists_last a a p [] hp hane
            (by simp [members_of_noComma a hc]) (by simp)
        · simp only [ne_eq, he, not_false_eq_true, if_true]
          cases store with
          | none =>
            rw [CheckIfAWSAccountExists_none] at hchk
            simp only [Prod.mk.injEq] at hchk
            exact absurd hchk.2.1.symm he
          | some v =>
            by_cases hv : v = ""
            · subst hv
              rw [CheckIfAWSAccountExists_empty] at hchk
              simp only [Prod.mk.injEq] at hchk
              exact absurd hchk.2.1.symm he
            · rw [CheckIfAWSAccountExists_some v _ hv] at hchk
              have hev := checkLoop_value _ _ _ _ _ _ hchk
              subst hev
              exact CheckIfAWSAccountExists_last _ a p (members e) hp
                (append_comma_ne_empty e a) (members_append e a hc)
                (checkLoop_none _ _ _ _ _ hchk)

/-- After a `LinkAccountRole` of a non-empty comma-free role, a second one finds the
role linked and sends nothing. -/
theorem linkAccount_twice (store : Option String) (a : String) (buildFails addFails : Bool)
    (hne : a ≠ "") (hc : NoComma a) :
    LinkAccountRole (fetch (linkAccountStep store a).2) buildFails addFails a = ⟨none, []⟩ := by
  have hfound : ∀ value, value ≠ "" → a ∈ members value →
      LinkAccountRole (fetch (some value)) buildFails addFails a = ⟨none, []⟩ := by
    intro value h1 h2
    simp only [members] at h2
    simp [LinkAccountRole, fetch, Response.isErr, Response.Value, h1, List.contains,
      List.elem_iff, h2]
  cases store with
  | none =>
    have h1 : (linkAccountStep none a).2 = some a := by
      simp [linkAccountStep, LinkAccountRole, fetch, Response.isErr, Response.Status,
        Response.Value, applyCalls, applyCall]
    rw [h1]
    exact hfound a hne (by simp [members_of_noComma a hc])
  | some v =>
    by_cases hv : v = ""
    · subst hv
      have h1 : (linkAccountStep (some "") a).2 = some a := by
        simp [linkAccountStep, LinkAccountRole, fetch, Response.isErr,
          Response.Value, applyCalls, applyCall]
      rw [h1]
      exact hfound a hne (by simp [members_of_noComma a hc])
    · by_cases hmem : a ∈ members v
      · have h1 : (linkAccountStep (some v) a).2 = some v := by
          have hmem2 := hmem
          simp only [members] at hmem2
          simp [linkAccountStep, LinkAccountRole, fetch, Response.isErr,
            Response.Value, applyCalls, hv, List.contains, List.elem_iff, hmem2]
        rw [h1]
        exact hfound v hv hmem
      · have h1 : (linkAccountStep (some v) a).2 = some (v ++ "," ++ a) := by
          have hmem2 := hmem
          simp only [members] at hmem2
          simp [linkAccountStep, LinkAccountRole, fetch, Response.isErr,
            Response.Value, applyCalls, applyCall, hv, List.contains, List.elem_iff, hmem2]
        rw [h1]
        exact hfound _ (append_comma_ne_empty v a) (by simp [members_append v a hc])

/-- Linking well-formed comma-free roles of new, pairwise distinct accounts appends them
in order, every call returning `(true, nil)`. -/
theorem linkAll_from (orgID : String) (arns : List String) :
    ∀ store : Option String,
      (∀ m ∈ storedMembers store ++ arns, WellFormed m) → (∀ a ∈ arns, NoComma a) →
      ((storedMembers store ++ arns).map accountIDOf).Nodup →
      (linkAll orgID store arns).1 = arns.map (fun _ => (true, none)) ∧
      storedMembers (linkAll orgID store arns).2 = storedMembers store ++ arns ∧
      (arns ≠ [] → (linkAll orgID store arns).2 ≠ none) := by
  induction arns with
  | nil =>
    intro store _ _ _
    simp [linkAll]
  | cons a rest ih =>
    intro store hwf hnc hnd
    have hwfs : ∀ m ∈ storedMembers store, WellFormed m := fun m hm => hwf m (by simp [hm])
    have hnew : accountIDOf a ∉ (storedMembers store).map accountIDOf := by
      rw [List.map_append, List.nodup_append] at hnd
      intro hin
      exact hnd.2.2 hin (by simp)
    obtain ⟨v, hstep, hmem⟩ := linkOrgStep_fresh store orgID a hwfs (hwf a (by simp))
      (hnc a (by simp)) hnew
    have hsm : storedMembers (some v) ++ rest = storedMembers store ++ a :: rest := by
      simp [storedMembers, hmem]
    obtain ⟨h1, h2, h3⟩ := ih (some v) (by rw [hsm]; exact hwf)
      (fun x hx => hnc x (by simp [hx])) (by rw [hsm]; exact hnd)
    refine ⟨?_, ?_, ?_⟩
    · simp [linkAll, hstep, h1]
    · simp only [linkAll, hstep]
      rw [h2, hsm]
    · intro _
      simp only [linkAll, hstep]
      cases rest with
      | nil => simp [linkAll]
      | cons b rest2 => exact h3 (by simp)

/-! ## Claims about the registry -/

/-- C1: for a stored `sts_ocm_role` value whose members are well-formed ARNs and a
well-formed candidate that is not a member, if some member has the candidate's
account-ID then `LinkOrgToRole` returns the Conflict user error naming a member of that
account with `linked = false`, sends no label write whatever the later steps would
answer, and the stored value is unchanged. -/
theorem LinkOrgToRole_conflict (v orgID roleARN : String) (buildFails : Bool)
    (addErr : Option Nat)
    (hwf : ∀ m ∈ members v, WellFormed m) (hcand : WellFormed roleARN)
    (hnot : roleARN ∉ members v)
    (hsame : ∃ m ∈ members v, accountIDOf m = accountIDOf roleARN) :
    ∃ selected, selected ∈ members v ∧ accountIDOf selected = accountIDOf roleARN ∧
      LinkOrgToRole (fetch (some v)) buildFails addErr orgID roleARN
        = ⟨(false, some (.userConflict orgID selected)), []⟩ ∧
      (linkOrgStep (some v) orgID roleARN).2 = some v := by
  obtain ⟨p, hp⟩ := (wellFormed_iff roleARN).mp hcand
  have hacc : accountIDOf roleARN = some p.AccountID := by simp [accountIDOf, hp]
  have hv := ne_empty_of_wellFormed_members v hwf
  obtain ⟨m, hm, hmacc⟩ := hsame
  have hsome : ((members v).find? (fun m => decide (accountIDOf m = some p.AccountID))).isSome := by
    rw [List.find?_isSome]
    exact ⟨m, hm, by simp [hmacc, hacc]⟩
  obtain ⟨sel, hsel⟩ := Option.isSome_iff_exists.mp hsome
  have hchk : CheckIfAWSAccountExists (fetch (some v)) p.AccountID = (true, v, sel, none) := by
    rw [CheckIfAWSAccountExists_some v _ hv, checkLoop_wellFormed v _ _ hwf, hsel]
  have hselmem : sel ∈ members v := List.mem_of_find?_eq_some hsel
  have hselacc : accountIDOf sel = some p.AccountID := by
    simpa using List.find?_some hsel
  have hne : sel ≠ roleARN := fun e => hnot (e ▸ hselmem)
  have hlink : ∀ b a, LinkOrgToRole (fetch (some v)) b a orgID roleARN
      = ⟨(false, some (.userConflict orgID sel)), []⟩ := by
    intro b a
    simp [LinkOrgToRole, hp, hchk, hne]
  refine ⟨sel, hselmem, by rw [hselacc, hacc], hlink _ _, ?_⟩
  simp [linkOrgStep, hlink, applyCalls]

/-- Witness of C1: a second role of account 123456789012. -/
theorem LinkOrgToRole_conflict_witness :
    ∃ selected, selected ∈ members "arn:aws:iam::123456789012:role/a" ∧
      accountIDOf selected = accountIDOf "arn:aws:iam::123456789012:role/b" ∧
      LinkOrgToRole (fetch (some "arn:aws:iam::123456789012:role/a")) false none "org"
          "arn:aws:iam::123456789012:role/b"
        = ⟨(false, some (.userConflict "org" selected)), []⟩ ∧
      (linkOrgStep (some "arn:aws:iam::123456789012:role/a") "org"
          "arn:aws:iam::123456789012:role/b").2 = some "arn:aws:iam::123456789012:role/a" :=
  LinkOrgToRole_conflict "arn:aws:iam::123456789012:role/a" "org"
    "arn:aws:iam::123456789012:role/b" false none (by decide) (by decide) (by decide)
    (by decide)

/-- C10: `CheckIfAWSAccountExists` on a stored value whose members are well-formed
ARNs returns no error, the raw stored value as the full set, `exists = true` exactly
when some member has the given account-ID, and as matching ARN the first such member
in stored order (the empty string when there is none); on an absent label and on an
empty label it returns `(false, "", "")` and no error. -/
theorem CheckIfAWSAccountExists_result (v acct : String)
    (hwf : ∀ m ∈ members v, WellFormed m) :
    (∃ exists_ selected,
      CheckIfAWSAccountExists (fetch (some v)) acct = (exists_, v, selected, none) ∧
      (exists_ = true ↔ ∃ m ∈ members v, accountIDOf m = some acct) ∧
      (exists_ = true → ∃ before after, members v = before ++ selected :: after ∧
        accountIDOf selected = some acct ∧ ∀ m ∈ before, accountIDOf m ≠ some acct) ∧
      (exists_ = false → selected = "")) ∧
    CheckIfAWSAccountExists (fetch none) acct = (false, "", "", none) ∧
    CheckIfAWSAccountExists (fetch (some "")) acct = (false, "", "", none) := by
  refine ⟨?_, CheckIfAWSAccountExists_none acct, CheckIfAWSAccountExists_empty acct⟩
  have hv := ne_empty_of_wellFormed_members v hwf
  rw [CheckIfAWSAccountExists_some v _ hv, checkLoop_wellFormed v _ _ hwf]
  cases hf : (members v).find? (fun m => decide (accountIDOf m = some acct)) with
  | none =>
    refine ⟨false, "", rfl, ?_, by simp, by simp⟩
    rw [List.find?_eq_none] at hf
    constructor
    · simp
    · rintro ⟨m, hm, hacc⟩
      exact absurd hacc (by simpa using hf m hm)
  | some sel =>
    obtain ⟨hpsel, before, after, hsplit, hbefore⟩ := List.find?_eq_some.mp hf
    have hacc : accountIDOf sel = some acct := by simpa using hpsel
    refine ⟨true, sel, rfl, ?_, ?_, by simp⟩
    · simp only [true_iff]
      exact ⟨sel, List.mem_of_find?_eq_some hf, hacc⟩
    · intro _
      refine ⟨before, after, hsplit, hacc, ?_⟩
      intro m hm
      simpa using hbefore m hm

/-- Witness of C10: two accounts, the second one is asked for. -/
theorem CheckIfAWSAccountExists_result_witness :
    (∃ exists_ selected,
      CheckIfAWSAccountExists
          (fetch (some "arn:aws:iam::111111111111:role/a,arn:aws:iam::222222222222:role/b"))
          "222222222222"
        = (exists_, "arn:aws:iam::111111111111:role/a,arn:aws:iam::222222222222:role/b",
            selected, none) ∧
      (exists_ = true ↔
        ∃ m ∈ members "arn:aws:iam::111111111111:role/a,arn:aws:iam::222222222222:role/b",
          accountIDOf m = some "222222222222") ∧
      (exists_ = true → ∃ before after,
        members "arn:aws:iam::111111111111:role/a,arn:aws:iam::222222222222:role/b"
          = before ++ selected :: after ∧
        accountIDOf selected = some "222222222222" ∧
        ∀ m ∈ before, accountIDOf m ≠ some "222222222222") ∧
      (exists_ = false → selected = "")) ∧
    CheckIfAWSAccountExists (fetch none) "222222222222" = (false, "", "", none) ∧
    CheckIfAWSAccountExists (fetch (some "")) "222222222222" = (false, "", "", none) :=
  CheckIfAWSAccountExists_result
    "arn:aws:iam::111111111111:role/a,arn:aws:iam::222222222222:role/b" "222222222222"
    (by decide)

/-- C2, as amended: from an absent label, or from a label whose members are
well-formed ARNs with pairwise distinct account-IDs, every state reached by successful
`LinkOrgToRole` calls whose role ARN contains no ',' and by `UnlinkOCMRoleFromOrg` calls
with any role ARN is again absent or has well-formed members with pairwise distinct
account-IDs. -/
theorem reachable_registryInv (store : Option String) (h : Reachable store) :
    RegistryInv store := by
  induction h with
  | start store h => exact h
  | link store orgID roleARN _ hcomma hok ih =>
    exact linkOrgStep_inv store orgID roleARN ih hcomma hok
  | unlink store orgID roleARN _ ih => exact unlinkOrgStep_inv store orgID roleARN ih

/-- Witness of C2: one role linked to an absent label. -/
theorem reachable_registryInv_witness :
    RegistryInv (linkOrgStep none "org" "arn:aws:iam::123456789012:role/a").2 :=
  reachable_registryInv _
    (Reachable.link none "org" "arn:aws:iam::123456789012:role/a"
      (Reachable.start none trivial) (by decide) (by decide))

/-- C2 as stated fails: one successful `LinkOrgToRole` of a role ARN that `arn.Parse`
accepts and that contains a ',' stores a value whose two members are well-formed ARNs
of the same account. -/
theorem link_comma_two_members_one_account :
    RegistryInv none ∧
    WellFormed "arn:aws:iam::123456789012:role/a,arn:aws:iam::123456789012:role/b" ∧
    linkOrgStep none "org" "arn:aws:iam::123456789012:role/a,arn:aws:iam::123456789012:role/b"
      = ((true, none),
          some "arn:aws:iam::123456789012:role/a,arn:aws:iam::123456789012:role/b") ∧
    members "arn:aws:iam::123456789012:role/a,arn:aws:iam::123456789012:role/b"
      = ["arn:aws:iam::123456789012:role/a", "arn:aws:iam::123456789012:role/b"] ∧
    accountIDOf "arn:aws:iam::123456789012:role/a" = some "123456789012" ∧
    accountIDOf "arn:aws:iam::123456789012:role/b" = some "123456789012" ∧
    ¬ RegistryInv (linkOrgStep none "org"
      "arn:aws:iam::123456789012:role/a,arn:aws:iam::123456789012:role/b").2 := by
  refine ⟨trivial, by decide, by decide, by decide, by decide, by decide, ?_⟩
  have h : linkOrgStep none "org"
      "arn:aws:iam::123456789012:role/a,arn:aws:iam::123456789012:role/b"
      = ((true, none),
          some "arn:aws:iam::123456789012:role/a,arn:aws:iam::123456789012:role/b") := by
    decide
  rw [h]
  intro hinv
  have hnd := hinv.2
  have hm : members "arn:aws:iam::123456789012:role/a,arn:aws:iam::123456789012:role/b"
      = ["arn:aws:iam::123456789012:role/a", "arn:aws:iam::123456789012:role/b"] := by decide
  rw [hm] at hnd
  revert hnd
  decide

/-- C7 fails on the code: with the label absent (the `Get` answers 404) both list
functions return the one-element sequence `[""]`, of length 1, with no error; the same
after `Unlink` removed the last member. -/
theorem listLinked_absent_label :
    GetAccountLinkedUserRoles (fetch none) = ([""], none) ∧
    GetOrganizationLinkedOCMRoles (fetch none) = ([""], none) ∧
    (GetAccountLinkedUserRoles (fetch none)).1.length = 1 ∧
    (GetOrganizationLinkedOCMRoles (fetch none)).1.length = 1 ∧
    unlinkOrgStep (some "arn:aws:iam::123456789012:role/a") "org"
      "arn:aws:iam::123456789012:role/a" = (none, none) ∧
    GetOrganizationLinkedOCMRoles (fetch (unlinkOrgStep
      (some "arn:aws:iam::123456789012:role/a") "org"
      "arn:aws:iam::123456789012:role/a").2) = ([""], none) := by
  decide

/-- C8: for both scopes, `Unlink` of a member of the fetched set (the label builder
returning no error) removes its first occurrence; when no member remains it sends
exactly one `Delete` and no `Update`, otherwise exactly one `Update` whose value is the
remaining members, in their original order, joined with ',' and no `Delete`; the result
is nil when the write succeeds. -/
theorem unlink_member (store : Option String) (writeErr : Option Nat)
    (accountID orgID roleARN : String)
    (hmem : roleARN ∈ members (fetch store).Value) :
    ∃ before after, members (fetch store).Value = before ++ roleARN :: after ∧
      roleARN ∉ before ∧
      UnlinkUserRoleFromAccount (fetch store) false writeErr accountID roleARN
        = ⟨writeErr.map Error.handled,
            if before ++ after = [] then [.Delete USERRoleLabel]
            else [.Update USERRoleLabel (stringsJoin (before ++ after) ',')]⟩ ∧
      UnlinkOCMRoleFromOrg (fetch store) false writeErr orgID roleARN
        = ⟨writeErr.map Error.handled,
            if before ++ after = [] then [.Delete OCMRoleLabel]
            else [.Update OCMRoleLabel (stringsJoin (before ++ after) ',')]⟩ := by
  obtain ⟨before, after, hnot, hsplit, herase⟩ := List.exists_erase_eq hmem
  refine ⟨before, after, hsplit, hnot, ?_, ?_⟩
  · simp only [UnlinkUserRoleFromAccount, GetAccountLinkedUserRoles_fetch]
    by_cases hrest : before ++ after = []
    · rw [unlinkFrom_last _ _ _ _ _ _ hmem (by rw [RemoveStrFromSlice, herase, hrest])]
      simp [hrest]
    · rw [unlinkFrom_more _ _ _ _ _ hmem (by rw [RemoveStrFromSlice, herase]; exact hrest)]
      simp only [RemoveStrFromSlice, herase, hrest, if_false]
  · simp only [UnlinkOCMRoleFromOrg, GetOrganizationLinkedOCMRoles_fetch]
    by_cases hrest : before ++ after = []
    · rw [unlinkFrom_last _ _ _ _ _ _ hmem (by rw [RemoveStrFromSlice, herase, hrest])]
      simp [hrest]
    · rw [unlinkFrom_more _ _ _ _ _ hmem (by rw [RemoveStrFromSlice, herase]; exact hrest)]
      simp only [RemoveStrFromSlice, herase, hrest, if_false]

/-- Witness of C8: the first of two members is unlinked. -/
theorem unlink_member_witness :
    ∃ before after,
      members (fetch (some "arn:aws:iam::1:role/a,arn:aws:iam::2:role/b")).Value
        = before ++ "arn:aws:iam::1:role/a" :: after ∧
      "arn:aws:iam::1:role/a" ∉ before ∧
      UnlinkUserRoleFromAccount (fetch (some "arn:aws:iam::1:role/a,arn:aws:iam::2:role/b"))
          false none "acct" "arn:aws:iam::1:role/a"
        = ⟨(none : Option Nat).map Error.handled,
            if before ++ after = [] then [.Delete USERRoleLabel]
            else [.Update USERRoleLabel (stringsJoin (before ++ after) ',')]⟩ ∧
      UnlinkOCMRoleFromOrg (fetch (some "arn:aws:iam::1:role/a,arn:aws:iam::2:role/b"))
          false none "org" "arn:aws:iam::1:role/a"
        = ⟨(none : Option Nat).map Error.handled,
            if before ++ after = [] then [.Delete OCMRoleLabel]
            else [.Update OCMRoleLabel (stringsJoin (before ++ after) ',')]⟩ :=
  unlink_member (some "arn:aws:iam::1:role/a,arn:aws:iam::2:role/b") none "acct" "org"
    "arn:aws:iam::1:role/a" (by decide)

/-- C9, as amended: for both scopes, `Unlink` of a role ARN that is not a member of
the stored set (any non-empty role ARN when the label is absent) returns the NotLinked user error of the
scope and sends neither an `Update` nor a `Delete`, whatever the builder and the remote
write would answer. -/
theorem unlink_not_member (store : Option String) (buildFails : Bool) (writeErr : Option Nat)
    (accountID orgID roleARN : String)
    (hnot : roleARN ∉ storedMembers store) (habsent : store = none → roleARN ≠ "") :
    UnlinkUserRoleFromAccount (fetch store) buildFails writeErr accountID roleARN
      = ⟨some (.userNotLinkedAccount roleARN accountID), []⟩ ∧
    UnlinkOCMRoleFromOrg (fetch store) buildFails writeErr orgID roleARN
      = ⟨some (.userNotLinkedOrg roleARN orgID), []⟩ := by
  have hmem : roleARN ∉ members (fetch store).Value := by
    cases store with
    | none => simpa [fetch, Response.Value, members_empty] using habsent rfl
    | some v => simpa [fetch, Response.Value, storedMembers] using hnot
  constructor
  · simp only [UnlinkUserRoleFromAccount, GetAccountLinkedUserRoles_fetch]
    exact unlinkFrom_not_mem _ _ _ _ _ _ hmem
  · simp only [UnlinkOCMRoleFromOrg, GetOrganizationLinkedOCMRoles_fetch]
    exact unlinkFrom_not_mem _ _ _ _ _ _ hmem

/-- C9 as stated fails for the empty string on an absent label: the fetched list is
`strings.Split("", ",")`, which holds the empty string, so both `Unlink` functions take
it for a member, send a `Delete` and return nil. -/
theorem unlink_empty_absent_label :
    "" ∉ storedMembers none ∧
    GetAccountLinkedUserRoles (fetch none) = ([""], none) ∧
    GetOrganizationLinkedOCMRoles (fetch none) = ([""], none) ∧
    UnlinkUserRoleFromAccount (fetch none) false none "acct" ""
      = ⟨none, [.Delete "sts_user_role"]⟩ ∧
    UnlinkOCMRoleFromOrg (fetch none) false none "org" ""
      = ⟨none, [.Delete "sts_ocm_role"]⟩ := by
  decide

/-- Witness of C9: a role of another account, and any role on an absent label. -/
theorem unlink_not_member_witness :
    (UnlinkUserRoleFromAccount (fetch (some "arn:aws:iam::1:role/a")) false none "acct"
        "arn:aws:iam::2:role/b"
      = ⟨some (.userNotLinkedAccount "arn:aws:iam::2:role/b" "acct"), []⟩ ∧
    UnlinkOCMRoleFromOrg (fetch (some "arn:aws:iam::1:role/a")) false none "org"
        "arn:aws:iam::2:role/b"
      = ⟨some (.userNotLinkedOrg "arn:aws:iam::2:role/b" "org"), []⟩) ∧
    (UnlinkUserRoleFromAccount (fetch none) false none "acct" "arn:aws:iam::2:role/b"
      = ⟨some (.userNotLinkedAccount "arn:aws:iam::2:role/b" "acct"), []⟩ ∧
    UnlinkOCMRoleFromOrg (fetch none) false none "org" "arn:aws:iam::2:role/b"
      = ⟨some (.userNotLinkedOrg "arn:aws:iam::2:role/b" "org"), []⟩) :=
  ⟨unlink_not_member (some "arn:aws:iam::1:role/a") false none "acct" "org"
      "arn:aws:iam::2:role/b" (by decide) (by decide),
   unlink_not_member none false none "acct" "org" "arn:aws:iam::2:role/b" (by decide)
      (by decide)⟩

/-- C5, as amended: for both scopes, every stored label state and every role ARN (a
non-empty string) without ',' for which a first `Link` call succeeds, a second `Link` call with
the same ARN returns a nil error (with `linked = false` for the organization) and sends
no label write, so the stored value after the second call is the one after the first. -/
theorem link_twice (store : Option String) (orgID roleARN : String)
    (buildFails addFails : Bool) (addErr : Option Nat)
    (hne : roleARN ≠ "") (hc : NoComma roleARN) :
    ((linkAccountStep store roleARN).1 = none →
      LinkAccountRole (fetch (linkAccountStep store roleARN).2) buildFails addFails roleARN
        = ⟨none, []⟩ ∧
      (linkAccountStep (linkAccountStep store roleARN).2 roleARN).2
        = (linkAccountStep store roleARN).2) ∧
    ((linkOrgStep store orgID roleARN).1.2 = none →
      LinkOrgToRole (fetch (linkOrgStep store orgID roleARN).2) buildFails addErr orgID roleARN
        = ⟨(false, none), []⟩ ∧
      (linkOrgStep (linkOrgStep store orgID roleARN).2 orgID roleARN).2
        = (linkOrgStep store orgID roleARN).2) := by
  constructor
  · intro _
    refine ⟨linkAccount_twice store roleARN buildFails addFails hne hc, ?_⟩
    have h := linkAccount_twice store roleARN false false hne hc
    simp only [linkAccountStep] at h ⊢
    rw [h]
    simp [applyCalls]
  · intro hok
    refine ⟨linkOrg_twice store orgID roleARN buildFails addErr hc hok, ?_⟩
    have h := linkOrg_twice store orgID roleARN false none hc hok
    simp only [linkOrgStep] at h ⊢
    rw [h]
    simp [applyCalls]

/-- Witness of C5: a second role is linked twice to a label holding another one. -/
theorem link_twice_witness :
    ((linkAccountStep (some "arn:aws:iam::1:role/a") "arn:aws:iam::2:role/b").1 = none →
      LinkAccountRole
          (fetch (linkAccountStep (some "arn:aws:iam::1:role/a") "arn:aws:iam::2:role/b").2)
          false false "arn:aws:iam::2:role/b"
        = ⟨none, []⟩ ∧
      (linkAccountStep
          (linkAccountStep (some "arn:aws:iam::1:role/a") "arn:aws:iam::2:role/b").2
          "arn:aws:iam::2:role/b").2
        = (linkAccountStep (some "arn:aws:iam::1:role/a") "arn:aws:iam::2:role/b").2) ∧
    ((linkOrgStep (some "arn:aws:iam::1:role/a") "org" "arn:aws:iam::2:role/b").1.2 = none →
      LinkOrgToRole
          (fetch (linkOrgStep (some "arn:aws:iam::1:role/a") "org" "arn:aws:iam::2:role/b").2)
          false none "org" "arn:aws:iam::2:role/b"
        = ⟨(false, none), []⟩ ∧
      (linkOrgStep
          (linkOrgStep (some "arn:aws:iam::1:role/a") "org" "arn:aws:iam::2:role/b").2
          "org" "arn:aws:iam::2:role/b").2
        = (linkOrgStep (some "arn:aws:iam::1:role/a") "org" "arn:aws:iam::2:role/b").2) :=
  link_twice (some "arn:aws:iam::1:role/a") "org" "arn:aws:iam::2:role/b" false false none
    (by decide) (by decide)

/-- C5 as stated fails for a role ARN with a ',' in the role name: after a first
successful `LinkAccountRole` the second call sends an `Add` and the stored value grows;
after a first successful `LinkOrgToRole` the second call returns the Conflict user
error. -/
theorem relink_comma_role :
    (linkAccountStep none "arn:aws:iam::123456789012:role/a,b"
        = (none, some "arn:aws:iam::123456789012:role/a,b") ∧
      LinkAccountRole (fetch (some "arn:aws:iam::123456789012:role/a,b")) false false
          "arn:aws:iam::123456789012:role/a,b"
        = ⟨none, [.Add "sts_user_role"
            "arn:aws:iam::123456789012:role/a,b,arn:aws:iam::123456789012:role/a,b"]⟩) ∧
    (linkOrgStep none "org" "arn:aws:iam::123456789012:role/a,b"
        = ((true, none), some "arn:aws:iam::123456789012:role/a,b") ∧
      LinkOrgToRole (fetch (some "arn:aws:iam::123456789012:role/a,b")) false none "org"
          "arn:aws:iam::123456789012:role/a,b"
        = ⟨(false, some (.userConflict "org" "arn:aws:iam::123456789012:role/a")), []⟩) := by
  decide

/-- C6, as amended: from an absent label, linking in order a non-empty sequence of
well-formed role ARNs without ',' and with pairwise distinct account-IDs succeeds at
every call (`linked = true`, nil error), and `GetOrganizationLinkedOCMRoles` then
returns exactly the linked ARNs, in the order of linking, with no error. -/
theorem linkAll_then_list (orgID : String) (arns : List String) (hne : arns ≠ [])
    (hwf : ∀ a ∈ arns, WellFormed a) (hc : ∀ a ∈ arns, NoComma a)
    (hnd : (arns.map accountIDOf).Nodup) :
    (linkAll orgID none arns).1 = arns.map (fun _ => (true, none)) ∧
    GetOrganizationLinkedOCMRoles (fetch (linkAll orgID none arns).2) = (arns, none) := by
  obtain ⟨h1, h2, h3⟩ := linkAll_from orgID arns none (by simpa [storedMembers] using hwf) hc
    (by simpa [storedMembers] using hnd)
  refine ⟨h1, ?_⟩
  rw [GetOrganizationLinkedOCMRoles_fetch]
  cases hs : (linkAll orgID none arns).2 with
  | none => exact absurd hs (h3 hne)
  | some v =>
    rw [hs] at h2
    simpa [storedMembers, fetch, Response.Value] using h2

/-- Witness of C6: two roles of two accounts. -/
theorem linkAll_then_list_witness :
    (linkAll "org" none ["arn:aws:iam::1:role/a", "arn:aws:iam::2:role/b"]).1
      = ["arn:aws:iam::1:role/a", "arn:aws:iam::2:role/b"].map (fun _ => (true, none)) ∧
    GetOrganizationLinkedOCMRoles
        (fetch (linkAll "org" none ["arn:aws:iam::1:role/a", "arn:aws:iam::2:role/b"]).2)
      = (["arn:aws:iam::1:role/a", "arn:aws:iam::2:role/b"], none) :=
  linkAll_then_list "org" ["arn:aws:iam::1:role/a", "arn:aws:iam::2:role/b"] (by decide)
    (by decide) (by decide) (by decide)

/-- C6 as stated fails.  Linking the single well-formed role ARN
`arn:aws:iam::123456789012:role/a,b` succeeds and the list then holds two elements, none
of them the linked ARN; linking the empty sequence leaves the label absent and the list
is `[""]`, not empty. -/
theorem linkAll_comma_or_empty :
    (WellFormed "arn:aws:iam::123456789012:role/a,b" ∧
      (linkAll "org" none ["arn:aws:iam::123456789012:role/a,b"]).1 = [(true, none)] ∧
      GetOrganizationLinkedOCMRoles
          (fetch (linkAll "org" none ["arn:aws:iam::123456789012:role/a,b"]).2)
        = (["arn:aws:iam::123456789012:role/a", "b"], none) ∧
      "arn:aws:iam::123456789012:role/a,b" ∉ ["arn:aws:iam::123456789012:role/a", "b"]) ∧
    ((linkAll "org" none []).1 = [] ∧
      GetOrganizationLinkedOCMRoles (fetch (linkAll "org" none []).2) = ([""], none)) := by
  decide

/-! ## Claims about the admin saga -/

/-- C3: in every execution in which `CreateUser` succeeded and the provider step then
fails (`CreateIdentityProvider` for the new provider when no HTPasswd provider existed,
its `Build()` returning no error as the generated builders of the SDK do, or
`AddHTPasswdUser` on the existing one), `DeleteUser(clusterID, "cluster-admins", admin
user ID)` is issued, it is the last call before the exit, and the run exits with
failure. -/
theorem run_remote_failure_rolls_back (i : RunInput) (password : String)
    (hready : i.clusterReady = true) (hadmin : HasClusterAdmin i.existingUserList = false)
    (hpw : (if i.passwordArg.length = 0 then i.generated else some i.passwordArg)
      = some password)
    (hbuild : i.userBuildFails = false) (hcreate : i.createUserFails = false)
    (hfail : (i.existingHTPasswdIDP = none ∧ i.idpBuildFails = false ∧ i.createIDPFails = true)
      ∨ (i.existingHTPasswdIDP ≠ none ∧ i.addUserFails = true)) :
    ClientCall.DeleteUser i.clusterID "cluster-admins" ClusterAdminUsername ∈ (run i).calls ∧
    (run i).calls.getLast? = some (.DeleteUser i.clusterID "cluster-admins" ClusterAdminUsername)
      ∧ (run i).exitCode = 1 := by
  rcases hfail with ⟨h1, h2, h3⟩ | ⟨h1, h2⟩
  · simp [run, hready, hadmin, hpw, hbuild, hcreate, h1, h2, h3, exitFailure]
  · cases hidp : i.existingHTPasswdIDP with
    | none => exact absurd hidp h1
    | some idpID => simp [run, hready, hadmin, hpw, hbuild, hcreate, hidp, h2, exitFailure]

/-- Witness of C3: `CreateIdentityProvider` fails on a cluster without HTPasswd
provider. -/
theorem run_remote_failure_rolls_back_witness :
    ClientCall.DeleteUser "c1" "cluster-admins" ClusterAdminUsername
      ∈ (run (RunInput.mk "mycluster" "c1" "https://api.example:6443" true none [] "htpasswd"
          "MasterKey123" none false false false true false false false false)).calls ∧
    (run (RunInput.mk "mycluster" "c1" "https://api.example:6443" true none [] "htpasswd"
      "MasterKey123" none false false false true false false false false)).calls.getLast?
      = some (.DeleteUser "c1" "cluster-admins" ClusterAdminUsername) ∧
    (run (RunInput.mk "mycluster" "c1" "https://api.example:6443" true none [] "htpasswd"
      "MasterKey123" none false false false true false false false false)).exitCode = 1 :=
  run_remote_failure_rolls_back
    (RunInput.mk "mycluster" "c1" "https://api.example:6443" true none [] "htpasswd"
      "MasterKey123" none false false false true false false false false)
    "MasterKey123" rfl (by decide) (by decide) rfl rfl (Or.inl ⟨rfl, rfl, rfl⟩)

/-- C4: when the cluster is not ready, or the admin username is in the user list of
the existing identity provider, or no password was supplied and the generation fails,
`run` issues no mutating remote call and exits with failure. -/
theorem run_precondition_failure (i : RunInput)
    (h : i.clusterReady = false ∨ HasClusterAdmin i.existingUserList = true
      ∨ (i.passwordArg.length = 0 ∧ i.generated = none)) :
    (run i).calls = [] ∧ (run i).exitCode = 1 := by
  rcases h with h | h | ⟨h1, h2⟩
  · simp [run, h, exitFailure]
  · by_cases hr : i.clusterReady = true <;> simp [run, h, hr, exitFailure]
  · by_cases hr : i.clusterReady = true <;>
      by_cases ha : HasClusterAdmin i.existingUserList = true <;>
      simp [run, h1, h2, hr, ha, exitFailure]

/-- Witness of C4: a cluster that is not ready. -/
theorem run_precondition_failure_witness :
    (run (RunInput.mk "mycluster" "c1" "https://api.example:6443" false none [] "htpasswd"
      "MasterKey123" none false false false false false false false false)).calls = [] ∧
    (run (RunInput.mk "mycluster" "c1" "https://api.example:6443" false none [] "htpasswd"
      "MasterKey123" none false false false false false false false false)).exitCode = 1 :=
  run_precondition_failure _ (Or.inl rfl)

/-! ## The loop of `generateRandomPassword` -/

theorem mem_all_of_drawn (n : Nat) (c : Char) (h : all.data[n]? = some c) : c ∈ all.data :=
  List.getElem?_mem h

/-- Invariant of the first loop: from iteration 1 on, the password is a rearrangement of
the characters drawn so far plus a second copy of the first one. -/
theorem genLoop_perm (length : Nat) (chars positions : Nat → Option Nat) (c0 : Char) :
    ∀ (n i : Nat) (password cs : List Char), i + n = length → 0 < i →
      cs.length = min i (length - 1) →
      (∀ k, k < cs.length → drawnChar chars k = cs[k]?) →
      cs[0]? = some c0 → password.Perm (c0 :: cs) →
      ∀ raw, genLoop length chars positions n i password = .returned (some raw) →
      ∃ cs2 : List Char, cs2.length = length - 1 ∧
        (∀ k, k < length - 1 → drawnChar chars k = cs2[k]?) ∧
        cs2[0]? = some c0 ∧ raw.Perm (c0 :: cs2) := by
  intro n
  induction n with
  | zero =>
    intro i password cs hin hi hlen hdrawn h0 hperm raw h
    simp only [genLoop, Run.returned.injEq, Option.some.injEq] at h
    subst h
    refine ⟨cs, by omega, ?_, h0, hperm⟩
    intro k hk
    exact hdrawn k (by omega)
  | succ n ih =>
    intro i password cs hin hi hlen hdrawn h0 hperm raw h
    have hne : password ≠ [] := by
      intro e
      rw [e] at hperm
      simpa using hperm.length_eq
    cases hc : chars i with
    | none => simp [genLoop, hc] at h
    | some c =>
      cases hnew : all.data[c]? with
      | none => simp [genLoop, hc, hnew] at h
      | some newchar =>
        by_cases hlt : i < length - 1
        · cases hj : positions i with
          | none => simp [genLoop, hc, hnew, hne, hlt, hj] at h
          | some j =>
            by_cases hjl : j ≤ password.length
            · simp only [genLoop, hc, hnew, hne, if_false, hlt, if_true, hj, hjl] at h
              have hcl : cs.length = i := by omega
              refine ih (i + 1) _ (cs ++ [newchar]) (by omega) (by omega)
                (by simp; omega) ?_ ?_ ?_ raw h
              · intro k hk
                simp only [List.length_append, List.length_singleton] at hk
                by_cases hki : k < cs.length
                · rw [hdrawn k hki, List.getElem?_append_left hki]
                · have hk2 : k = i := by omega
                  subst hk2
                  rw [List.getElem?_append_right (by omega)]
                  simp [drawnChar, hc, hnew, hcl]
              · cases cs with
                | nil => simp at h0
                | cons x xs => simpa using h0
              · have h1 : (password.take j ++ newchar :: password.drop j).Perm
                    (newchar :: password) := by
                  have hmid : (password.take j ++ newchar :: password.drop j).Perm
                      (newchar :: (password.take j ++ password.drop j)) := List.perm_middle
                  simpa [List.take_append_drop] using hmid
                have h2 : (newchar :: password).Perm (c0 :: (cs ++ [newchar])) := by
                  have h3 : (newchar :: password).Perm (newchar :: c0 :: cs) :=
                    List.Perm.cons newchar hperm
                  have h4 : (newchar :: c0 :: cs).Perm (c0 :: cs ++ [newchar]) :=
                    (List.perm_append_singleton newchar (c0 :: cs)).symm
                  exact h3.trans (by simpa using h4)
                exact h1.trans h2
            · simp [genLoop, hc, hnew, hne, hlt, hj, hjl] at h
        · simp only [genLoop, hc, hnew, hne, if_false, hlt] at h
          exact ih (i + 1) password cs (by omega) (by omega) (by omega) hdrawn h0 hperm raw h

/-- The password before the separators: the first `length - 1` drawn characters and a
second copy of the first one, in some order. -/
theorem rawPassword_perm (length : Nat) (hlen : 2 ≤ length)
    (chars positions : Nat → Option Nat) (raw : List Char)
    (h : rawPassword length chars positions = .returned (some raw)) :
    ∃ (c0 : Char) (cs : List Char), cs.length = length - 1 ∧
      (∀ k, k < length - 1 → drawnChar chars k = cs[k]?) ∧
      cs[0]? = some c0 ∧ raw.Perm (c0 :: cs) := by
  obtain ⟨n, rfl⟩ : ∃ n, length = n + 1 := ⟨length - 1, by omega⟩
  unfold rawPassword at h
  cases hc : chars 0 with
  | none => simp [genLoop, hc] at h
  | some c =>
    cases hnew : all.data[c]? with
    | none => simp [genLoop, hc, hnew] at h
    | some c0 =>
      have hlt : 0 < n + 1 - 1 := by omega
      have hlt2 : 0 < n := by omega
      cases hj : positions 0 with
      | none => simp [genLoop, hc, hnew, hlt2, hj] at h
      | some j =>
        by_cases hjl : j ≤ 1
        · simp only [genLoop, hc, hnew, if_true, hlt, hj, List.length_singleton, hjl] at h
          refine ⟨c0, genLoop_perm (n + 1) chars positions c0 n 1 _ [c0] (by omega) (by omega)
            (by simp; omega) ?_ (by simp) ?_ raw h⟩
          · intro k hk
            have hk0 : k = 0 := by simpa using hk
            subst hk0
            simp [drawnChar, hc, hnew]
          · have hj2 : j = 0 ∨ j = 1 := by omega
            rcases hj2 with rfl | rfl <;> simp
        · simp [genLoop, hc, hnew, hlt2, hj, hjl] at h

/-- The draw of the character in the last iteration is not used. -/
theorem genLoop_congr (length : Nat) (chars chars2 positions : Nat → Option Nat)
    (hsame : ∀ k, k < length - 1 → chars k = chars2 k)
    (hlast : (drawnChar chars (length - 1)).isSome) (hlast2 : (drawnChar chars2 (length - 1)).isSome) :
    ∀ (n i : Nat) (password : List Char), i + n = length → (0 < i → password ≠ []) →
      (i = 0 → 2 ≤ length) →
      genLoop length chars positions n i password
        = genLoop length chars2 positions n i password := by
  intro n
  induction n with
  | zero =>
    intro i password _ _ _
    simp [genLoop]
  | succ n ih =>
    intro i password hin hne h0
    by_cases hlt : i < length - 1
    · have hs := hsame i hlt
      cases hc : chars i with
      | none =>
        rw [hc] at hs
        simp [genLoop, hc, ← hs]
      | some c =>
        rw [hc] at hs
        cases hnew : all.data[c]? with
        | none => simp [genLoop, hc, ← hs, hnew]
        | some newchar =>
          cases hj : positions i with
          | none => simp [genLoop, hc, ← hs, hnew, hlt, hj]
          | some j =>
            simp only [genLoop, hc, ← hs, hnew, hlt, if_true, hj]
            generalize (if password = [] then [newchar] else password) = q
            by_cases hjl : j ≤ q.length
            · simp only [hjl, if_true]
              exact ih (i + 1) _ (by omega) (fun _ => by simp) (by omega)
            · simp [hjl]
    · have hi : i = length - 1 := by omega
      have hpos : 0 < i := by
        rcases Nat.eq_zero_or_pos i with h | h
        · have := h0 h
          omega
        · exact h
      have hp := hne hpos
      subst hi
      obtain ⟨a, ha⟩ := Option.isSome_iff_exists.mp hlast
      obtain ⟨b, hb⟩ := Option.isSome_iff_exists.mp hlast2
      simp only [drawnChar] at ha hb
      cases hc : chars (length - 1) with
      | none => simp [hc] at ha
      | some c =>
        cases hc2 : chars2 (length - 1) with
        | none => simp [hc2] at hb
        | some c2 =>
          simp only [hc] at ha
          simp only [hc2] at hb
          have hn0 : n = 0 := by omega
          subst hn0
          simp [genLoop, hc, hc2, ha, hb, hp]

/-- Length and alphabet of the password before the separators. -/
theorem rawPassword_shape (length : Nat) (hlen : 2 ≤ length)
    (chars positions : Nat → Option Nat) (raw : List Char)
    (h : rawPassword length chars positions = .returned (some raw)) :
    raw.length = length ∧ ∀ c ∈ raw, c ∈ all.data := by
  obtain ⟨c0, cs, hcl, hdrawn, h0, hperm⟩ := rawPassword_perm length hlen chars positions raw h
  have hcs : ∀ c ∈ cs, c ∈ all.data := by
    intro c hc
    obtain ⟨k, hk⟩ := List.mem_iff_getElem?.mp hc
    have hkl : k < cs.length := by
      rcases Nat.lt_or_ge k cs.length with h1 | h1
      · exact h1
      · rw [List.getElem?_eq_none h1] at hk
        exact absurd hk (by simp)
    have hd := hdrawn k (by omega)
    rw [hk] at hd
    unfold drawnChar at hd
    cases hn : chars k with
    | none => simp [hn] at hd
    | some n =>
      simp only [hn] at hd
      exact mem_all_of_drawn n c hd
  constructor
  · rw [hperm.length_eq]
    simp
    omega
  · intro c hc
    rcases List.mem_cons.mp (hperm.subset hc) with rfl | hmem
    · exact hcs _ (List.getElem?_mem h0)
    · exact hcs c hmem

/-- The second loop writes the three separators when the password is long enough. -/
theorem writeSeparators_three (raw pw : List Char)
    (h : writeSeparators [5, 11, 17] raw = some pw) :
    17 < raw.length ∧ pw = ((raw.set 5 '-').set 11 '-').set 17 '-' := by
  simp only [writeSeparators, List.length_set] at h
  by_cases h5 : 5 < raw.length
  · by_cases h11 : 11 < raw.length
    · by_cases h17 : 17 < raw.length
      · simp only [h5, h11, h17, if_true, Option.some.injEq] at h
        exact ⟨h17, h.symm⟩
      · simp [h5, h11, h17] at h
    · simp [h5, h11] at h
  · simp [h5] at h

/-- What `generateRandomPassword` returns is the password of the first loop with the
separators written. -/
theorem generateRandomPassword_returned (length : Nat) (chars positions : Nat → Option Nat)
    (pw : String) (h : generateRandomPassword length chars positions = .returned (some pw)) :
    ∃ raw, rawPassword length chars positions = .returned (some raw) ∧ 17 < raw.length ∧
      pw.data = ((raw.set 5 '-').set 11 '-').set 17 '-' := by
  unfold generateRandomPassword at h
  cases hr : rawPassword length chars positions with
  | panicked => simp [hr] at h
  | returned o =>
    cases o with
    | none => simp [hr] at h
    | some raw =>
      cases hw : writeSeparators [5, 11, 17] raw with
      | none => simp [hr, hw] at h
      | some out =>
        simp only [hr, hw, Run.returned.injEq, Option.some.injEq] at h
        obtain ⟨h17, hout⟩ := writeSeparators_three raw out hw
        exact ⟨raw, rfl, h17, by rw [← h, hout]⟩

/-! ## Claims about `generateRandomPassword` -/

/-- C11: whenever `generateRandomPassword(23)` returns a password, it has exactly 23
characters, the separator '-' at the indices 5, 11 and 17, every other character in the
alphabet `all`, and the alphabet has none of '0', 'O', '1', 'l'. -/
theorem generateRandomPassword_23 (chars positions : Nat → Option Nat) (pw : String)
    (h : generateRandomPassword 23 chars positions = .returned (some pw)) :
    pw.length = 23 ∧ pw.data[5]? = some '-' ∧ pw.data[11]? = some '-' ∧
    pw.data[17]? = some '-' ∧
    (∀ k c, k ≠ 5 → k ≠ 11 → k ≠ 17 → pw.data[k]? = some c → c ∈ all.data) ∧
    '0' ∉ all.data ∧ 'O' ∉ all.data ∧ '1' ∉ all.data ∧ 'l' ∉ all.data := by
  obtain ⟨raw, hraw, h17, hpw⟩ := generateRandomPassword_returned 23 chars positions pw h
  obtain ⟨hlen, hall⟩ := rawPassword_shape 23 (by omega) chars positions raw hraw
  refine ⟨?_, ?_, ?_, ?_, ?_, by decide, by decide, by decide, by decide⟩
  · simp [String.length, hpw, hlen]
  · rw [hpw, List.getElem?_set_ne (by omega), List.getElem?_set_ne (by omega),
      List.getElem?_set_self (by omega)]
  · rw [hpw, List.getElem?_set_ne (by omega), List.getElem?_set_self (by simp; omega)]
  · rw [hpw, List.getElem?_set_self (by simp; omega)]
  · intro k c h5 h11 h17 hk
    rw [hpw, List.getElem?_set_ne (Ne.symm h17), List.getElem?_set_ne (Ne.symm h11),
      List.getElem?_set_ne (Ne.symm h5)] at hk
    exact hall c (List.getElem?_mem hk)

/-- Witness of C11: the character draws 0, 1, 2, ... all inserted at the front. -/
theorem generateRandomPassword_23_witness :
    ("wvuts-qponm-jihgf-dcbaa" : String).length = 23 ∧
    ("wvuts-qponm-jihgf-dcbaa" : String).data[5]? = some '-' ∧
    ("wvuts-qponm-jihgf-dcbaa" : String).data[11]? = some '-' ∧
    ("wvuts-qponm-jihgf-dcbaa" : String).data[17]? = some '-' ∧
    (∀ k c, k ≠ 5 → k ≠ 11 → k ≠ 17 →
      ("wvuts-qponm-jihgf-dcbaa" : String).data[k]? = some c → c ∈ all.data) ∧
    '0' ∉ all.data ∧ 'O' ∉ all.data ∧ '1' ∉ all.data ∧ 'l' ∉ all.data :=
  generateRandomPassword_23 (fun i => some i) (fun _ => some 0) "wvuts-qponm-jihgf-dcbaa"
    (by decide)

/-- C18: for every length of at least 18, two runs of `generateRandomPassword` whose
draws differ only in the character draw of the last iteration return the same result;
a returned password is, up to the three separators written over it, a rearrangement of
the first `length - 1` drawn characters and a second copy of the first one. -/
theorem last_char_draw_unused (length : Nat) (hlen : 18 ≤ length)
    (chars chars2 positions : Nat → Option Nat)
    (hsame : ∀ k, k ≠ length - 1 → chars k = chars2 k)
    (hlast : (drawnChar chars (length - 1)).isSome)
    (hlast2 : (drawnChar chars2 (length - 1)).isSome) :
    generateRandomPassword length chars positions
      = generateRandomPassword length chars2 positions ∧
    ∀ pw, generateRandomPassword length chars positions = .returned (some pw) →
      ∃ (raw : List Char) (c0 : Char) (cs : List Char),
        pw.data = ((raw.set 5 '-').set 11 '-').set 17 '-' ∧
        cs.length = length - 1 ∧ (∀ k, k < length - 1 → drawnChar chars k = cs[k]?) ∧
        cs[0]? = some c0 ∧ raw.Perm (c0 :: cs) := by
  constructor
  · have hraw : rawPassword length chars positions = rawPassword length chars2 positions :=
      genLoop_congr length chars chars2 positions (fun k hk => hsame k (by omega)) hlast hlast2
        length 0 [] (by omega) (by omega) (by omega)
    simp only [generateRandomPassword, hraw]
  · intro pw hpw
    obtain ⟨raw, hraw, _, hdata⟩ := generateRandomPassword_returned length chars positions pw hpw
    obtain ⟨c0, cs, h1, h2, h3, h4⟩ := rawPassword_perm length (by omega) chars positions raw hraw
    exact ⟨raw, c0, cs, hdata, h1, h2, h3, h4⟩

/-- Witness of C18: 23 characters, the last character draw is 22 in one run and 57 in
the other. -/
theorem last_char_draw_unused_witness :
    generateRandomPassword 23 (fun i => some i) (fun _ => some 0)
      = generateRandomPassword 23 (fun i => if i = 22 then some 57 else some i)
          (fun _ => some 0) ∧
    ∀ pw, generateRandomPassword 23 (fun i => some i) (fun _ => some 0)
        = .returned (some pw) →
      ∃ (raw : List Char) (c0 : Char) (cs : List Char),
        pw.data = ((raw.set 5 '-').set 11 '-').set 17 '-' ∧
        cs.length = 23 - 1 ∧
        (∀ k, k < 23 - 1 → drawnChar (fun i => some i) k = cs[k]?) ∧
        cs[0]? = some c0 ∧ raw.Perm (c0 :: cs) :=
  last_char_draw_unused 23 (by decide) (fun i => some i)
    (fun i => if i = 22 then some 57 else some i) (fun _ => some 0)
    (by
      intro k hk
      have hk2 : k ≠ 22 := hk
      simp [hk2])
    (by decide) (by decide)

/-! ## More claims about the admin saga -/

/-- C12: after `CreateUser` succeeded, with an existing HTPasswd provider the calls are
`CreateUser`, then `AddHTPasswdUser(admin username, password, clusterID, provider ID)`
(then `DeleteUser` when it failed) and no `CreateIdentityProvider`; without one, the new
provider being built, the calls are `CreateUser`, then one `CreateIdentityProvider` whose
user list is the single entry of the admin username with the resolved password (then
`DeleteUser` when it failed) and no `AddHTPasswdUser`; a caller-supplied password is the
resolved password. -/
theorem run_provider_step (i : RunInput) (password : String)
    (hready : i.clusterReady = true) (hadmin : HasClusterAdmin i.existingUserList = false)
    (hpw : (if i.passwordArg.length = 0 then i.generated else some i.passwordArg)
      = some password)
    (hbuild : i.userBuildFails = false) (hcreate : i.createUserFails = false) :
    (∀ idpID, i.existingHTPasswdIDP = some idpID →
      (run i).calls
        = [.CreateUser i.clusterID "cluster-admins" ClusterAdminUsername,
            .AddHTPasswdUser ClusterAdminUsername password i.clusterID idpID]
          ++ (if i.addUserFails then
                [.DeleteUser i.clusterID "cluster-admins" ClusterAdminUsername]
              else [])) ∧
    (i.existingHTPasswdIDP = none → i.idpBuildFails = false →
      (run i).calls
        = [.CreateUser i.clusterID "cluster-admins" ClusterAdminUsername,
            .CreateIdentityProvider i.clusterID i.idpName [(ClusterAdminUsername, password)]]
          ++ (if i.createIDPFails then
                [.DeleteUser i.clusterID "cluster-admins" ClusterAdminUsername]
              else [])) ∧
    (i.passwordArg.length ≠ 0 → password = i.passwordArg) := by
  refine ⟨?_, ?_, ?_⟩
  · intro idpID hidp
    by_cases hf : i.addUserFails = true
    · simp [run, hready, hadmin, hpw, hbuild, hcreate, hidp, hf, exitFailure]
    · by_cases ho : i.hasOutputFlag = true <;> by_cases hp : i.printFails = true <;>
        simp [run, hready, hadmin, hpw, hbuild, hcreate, hidp, hf, finish, ho, hp]
  · intro hidp hb
    by_cases hf : i.createIDPFails = true
    · simp [run, hready, hadmin, hpw, hbuild, hcreate, hidp, hb, hf, exitFailure,
        CreateHTPasswdUser]
    · by_cases ho : i.hasOutputFlag = true <;> by_cases hp : i.printFails = true <;>
        simp [run, hready, hadmin, hpw, hbuild, hcreate, hidp, hb, hf, finish, ho, hp,
          CreateHTPasswdUser]
  · intro hlen
    simp only [hlen, if_false, Option.some.injEq] at hpw
    exact hpw.symm

/-- Witness of C12: a cluster without HTPasswd provider, every call succeeding. -/
theorem run_provider_step_witness :
    (run (RunInput.mk "mycluster" "c1" "https://api.example:6443" true none [] "htpasswd"
      "MasterKey123" none false false false false false false false false)).calls
      = [.CreateUser "c1" "cluster-admins" ClusterAdminUsername,
          .CreateIdentityProvider "c1" "htpasswd" [(ClusterAdminUsername, "MasterKey123")]]
        ++ (if false then [.DeleteUser "c1" "cluster-admins" ClusterAdminUsername] else []) :=
  (run_provider_step
    (RunInput.mk "mycluster" "c1" "https://api.example:6443" true none [] "htpasswd"
      "MasterKey123" none false false false false false false false false)
    "MasterKey123" rfl (by decide) (by decide) rfl rfl).2.1 rfl rfl

/-- C15: a run that ends without failure resolved a password; with structured output
the printed object has the key `api_url`, the key `username` with the admin username,
and the key `password` exactly when no password was supplied, then with the generated
password; without structured output the login guidance carries the resolved
password. -/
theorem run_success_output (i : RunInput) (hok : (run i).exitCode = 0) :
    ∃ password,
      (if i.passwordArg.length = 0 then i.generated else some i.passwordArg) = some password ∧
      (i.hasOutputFlag = true → ∃ obj, (run i).printed = some obj ∧
        obj.lookup "api_url" = some i.apiURL ∧
        obj.lookup "username" = some ClusterAdminUsername ∧
        ((obj.lookup "password").isSome = true ↔ i.passwordArg.length = 0) ∧
        (i.passwordArg.length = 0 → obj.lookup "password" = i.generated)) ∧
      (i.hasOutputFlag = false →
        (run i).guidance = some (i.apiURL, ClusterAdminUsername, password)) := by
  have hready : i.clusterReady = true := by
    by_contra h
    simp [run, h, exitFailure] at hok
  have hadmin : HasClusterAdmin i.existingUserList = false := by
    by_contra h
    simp [run, hready, h, exitFailure] at hok
  cases hpw : (if i.passwordArg.length = 0 then i.generated else some i.passwordArg) with
  | none => simp [run, hready, hadmin, hpw, exitFailure] at hok
  | some password =>
    refine ⟨password, rfl, ?_⟩
    have hfin : ∃ calls, run i = finish i password calls := by
      by_cases h1 : i.userBuildFails = true
      · simp [run, hready, hadmin, hpw, h1, exitFailure] at hok
      by_cases h2 : i.createUserFails = true
      · simp [run, hready, hadmin, hpw, h1, h2, exitFailure] at hok
      cases hidp : i.existingHTPasswdIDP with
      | none =>
        by_cases h3 : i.idpBuildFails = true
        · simp [run, hready, hadmin, hpw, h1, h2, hidp, h3, exitFailure] at hok
        by_cases h4 : i.createIDPFails = true
        · simp [run, hready, hadmin, hpw, h1, h2, hidp, h3, h4, exitFailure] at hok
        exact ⟨[.CreateUser i.clusterID "cluster-admins" ClusterAdminUsername,
          .CreateIdentityProvider i.clusterID i.idpName
            [CreateHTPasswdUser ClusterAdminUsername password]],
          by simp [run, hready, hadmin, hpw, h1, h2, hidp, h3, h4]⟩
      | some idpID =>
        by_cases h4 : i.addUserFails = true
        · simp [run, hready, hadmin, hpw, h1, h2, hidp, h4, exitFailure] at hok
        exact ⟨[.CreateUser i.clusterID "cluster-admins" ClusterAdminUsername,
          .AddHTPasswdUser ClusterAdminUsername password i.clusterID idpID],
          by simp [run, hready, hadmin, hpw, h1, h2, hidp, h4]⟩
    obtain ⟨calls, hrun⟩ := hfin
    rw [hrun] at hok ⊢
    constructor
    · intro hflag
      by_cases hp : i.printFails = true
      · simp [finish, hflag, hp] at hok
      by_cases hlen : i.passwordArg.length = 0
      · simp only [hlen, if_true] at hpw
        refine ⟨[("api_url", i.apiURL), ("username", ClusterAdminUsername),
          ("password", password)], by simp [finish, hflag, hp, hlen], ?_, ?_, ?_, ?_⟩ <;>
          simp [List.lookup, hlen, hpw]
      · refine ⟨[("api_url", i.apiURL), ("username", ClusterAdminUsername)],
          by simp [finish, hflag, hp, hlen], ?_, ?_, ?_, ?_⟩ <;>
          simp [List.lookup, hlen]
    · intro hflag
      simp [finish, hflag]

/-- Witness of C15: structured output after a generated password. -/
theorem run_success_output_witness :
    ∃ password,
      (if ("" : String).length = 0 then some "wvuts-qponm-jihgf-dcbaa" else some "")
        = some password ∧
      (true = true → ∃ obj,
        (run (RunInput.mk "mycluster" "c1" "https://api.example:6443" true none [] "htpasswd"
          "" (some "wvuts-qponm-jihgf-dcbaa") false false false false false false true
          false)).printed = some obj ∧
        obj.lookup "api_url" = some "https://api.example:6443" ∧
        obj.lookup "username" = some ClusterAdminUsername ∧
        ((obj.lookup "password").isSome = true ↔ ("" : String).length = 0) ∧
        (("" : String).length = 0 → obj.lookup "password" = some "wvuts-qponm-jihgf-dcbaa")) ∧
      (true = false →
        (run (RunInput.mk "mycluster" "c1" "https://api.example:6443" true none [] "htpasswd"
          "" (some "wvuts-qponm-jihgf-dcbaa") false false false false false false true
          false)).guidance = some ("https://api.example:6443", ClusterAdminUsername, password)) :=
  run_success_output
    (RunInput.mk "mycluster" "c1" "https://api.example:6443" true none [] "htpasswd"
      "" (some "wvuts-qponm-jihgf-dcbaa") false false false false false false true false)
    (by decide)

/-! ## More claims about the registry -/

/-- C13, as amended: `LinkAccountRole` compares no account-IDs.  For every stored
`sts_user_role` label and every candidate role ARN that is not a member, also when a
member has the account-ID of the candidate, it sends exactly one `Add` whose value is
the stored value, a ',' and the candidate (the candidate alone for an absent or empty
label), and returns nil when the `Add` succeeds: there is no Conflict. -/
theorem LinkAccountRole_appends (store : Option String) (roleARN : String) (addFails : Bool)
    (hnot : roleARN ∉ storedMembers store) :
    LinkAccountRole (fetch store) false addFails roleARN
      = ⟨if addFails then some (.handled (fetch store).ErrorStatus) else none,
          [.Add USERRoleLabel
            (match store with
              | none => roleARN
              | some v => if v ≠ "" then v ++ "," ++ roleARN else roleARN)]⟩ := by
  cases store with
  | none =>
    cases addFails <;>
      simp [LinkAccountRole, fetch, Response.isErr, Response.Status, Response.Value]
  | some v =>
    have hm : roleARN ∉ stringsSplit v ',' := by simpa [storedMembers, members] using hnot
    by_cases hv : v = ""
    · cases addFails <;>
        simp [LinkAccountRole, fetch, Response.isErr, Response.Value, hv]
    · cases addFails <;>
        simp [LinkAccountRole, fetch, Response.isErr, Response.Value, hv, List.contains,
          List.elem_iff, hm]

/-- Witness of C13: a second role of the account of the stored one. -/
theorem LinkAccountRole_appends_witness :
    LinkAccountRole (fetch (some "arn:aws:iam::123456789012:role/a")) false false
        "arn:aws:iam::123456789012:role/b"
      = ⟨if false then some (.handled (fetch (some "arn:aws:iam::123456789012:role/a")).ErrorStatus)
          else none,
          [.Add USERRoleLabel
            (if "arn:aws:iam::123456789012:role/a" ≠ "" then
              "arn:aws:iam::123456789012:role/a" ++ "," ++ "arn:aws:iam::123456789012:role/b"
            else "arn:aws:iam::123456789012:role/b")]⟩ :=
  LinkAccountRole_appends (some "arn:aws:iam::123456789012:role/a")
    "arn:aws:iam::123456789012:role/b" false (by decide)

/-- C13 as stated fails: with a stored role of account 123456789012, `LinkAccountRole`
of another role of that account returns nil and writes both roles. -/
theorem LinkAccountRole_same_account :
    "arn:aws:iam::123456789012:role/b" ∉ members "arn:aws:iam::123456789012:role/a" ∧
    accountIDOf "arn:aws:iam::123456789012:role/a"
      = accountIDOf "arn:aws:iam::123456789012:role/b" ∧
    LinkAccountRole (fetch (some "arn:aws:iam::123456789012:role/a")) false false
        "arn:aws:iam::123456789012:role/b"
      = ⟨none, [.Add "sts_user_role"
          "arn:aws:iam::123456789012:role/a,arn:aws:iam::123456789012:role/b"]⟩ := by
  decide

/-- On a `Get` that fails with status 403, `LinkAccountRole`, `CheckIfAWSAccountExists`,
`LinkOrgToRole` of a well-formed role, `GetAccountLinkedUserRoles` and
`UnlinkUserRoleFromAccount` return an error of type `Forbidden` and send no write. -/
theorem get_403_forbidden (buildFails addFails : Bool) (addErr : Option Nat)
    (id roleARN acct : String) (hwf : WellFormed roleARN) :
    (∃ err, LinkAccountRole (.failed 403) buildFails addFails roleARN = ⟨some err, []⟩ ∧
      err.GetType = Forbidden) ∧
    (∃ err, CheckIfAWSAccountExists (.failed 403) acct = (false, "", "", some err) ∧
      err.GetType = Forbidden) ∧
    (∃ err, LinkOrgToRole (.failed 403) buildFails addErr id roleARN = ⟨(false, some err), []⟩ ∧
      err.GetType = Forbidden) ∧
    (∃ err, GetAccountLinkedUserRoles (.failed 403) = ([], some err) ∧
      err.GetType = Forbidden) ∧
    (∃ err, UnlinkUserRoleFromAccount (.failed 403) buildFails addErr id roleARN
        = ⟨some err, []⟩ ∧ err.GetType = Forbidden) := by
  obtain ⟨p, hp⟩ := (wellFormed_iff roleARN).mp hwf
  have hchk : ∀ a, CheckIfAWSAccountExists (.failed 403) a
      = (false, "", "", some .forbiddenUser) := by
    intro a
    simp [CheckIfAWSAccountExists, Response.isErr, Response.Status]
  refine ⟨⟨.forbiddenUser, ?_, rfl⟩, ⟨.forbiddenUser, hchk acct, rfl⟩,
    ⟨.forbiddenUser, ?_, rfl⟩, ⟨.handled 403, ?_, rfl⟩, ⟨.handled 403, ?_, rfl⟩⟩
  · simp [LinkAccountRole, Response.isErr, Response.Status]
  · simp [LinkOrgToRole, hp, hchk]
  · simp [GetAccountLinkedUserRoles, Response.isErr, Response.Status, Response.ErrorStatus]
  · simp [UnlinkUserRoleFromAccount, GetAccountLinkedUserRoles, Response.isErr,
      Response.Status, Response.ErrorStatus]

/-- On a `Get` that fails with status 404 no function returns an error because of it:
the two `Link` functions write the role alone, the check finds nothing, the two list
functions return `strings.Split("", ",")`. -/
theorem get_404_no_error (id roleARN acct : String) (hwf : WellFormed roleARN) :
    LinkAccountRole (.failed 404) false false roleARN = ⟨none, [.Add USERRoleLabel roleARN]⟩ ∧
    CheckIfAWSAccountExists (.failed 404) acct = (false, "", "", none) ∧
    LinkOrgToRole (.failed 404) false none id roleARN
      = ⟨(true, none), [.Add OCMRoleLabel roleARN]⟩ ∧
    GetAccountLinkedUserRoles (.failed 404) = ([""], none) ∧
    GetOrganizationLinkedOCMRoles (.failed 404) = ([""], none) := by
  obtain ⟨p, hp⟩ := (wellFormed_iff roleARN).mp hwf
  have hchk : ∀ a, CheckIfAWSAccountExists (.failed 404) a = (false, "", "", none) :=
    fun a => CheckIfAWSAccountExists_none a
  refine ⟨?_, hchk acct, ?_, by decide, by decide⟩
  · simp [LinkAccountRole, Response.isErr, Response.Status, Response.Value]
  · simp [LinkOrgToRole, hp, hchk]

/-- C14 fails on the code: on a `Get` that fails with status 403,
`GetOrganizationLinkedOCMRoles` returns the error of `Send()` as it is, and so does
`UnlinkOCMRoleFromOrg`; its type is not `Forbidden`.  The sibling
`GetAccountLinkedUserRoles` passes the error through `handleErr` and returns one of type
`Forbidden`. -/
theorem orgList_forbidden_untyped :
    GetOrganizationLinkedOCMRoles (.failed 403) = ([], some (.sendErr 403)) ∧
    UnlinkOCMRoleFromOrg (.failed 403) false none "org" "arn:aws:iam::123456789012:role/a"
      = ⟨some (.sendErr 403), []⟩ ∧
    (Error.sendErr 403).GetType ≠ Forbidden ∧
    GetAccountLinkedUserRoles (.failed 403) = ([], some (.handled 403)) ∧
    (Error.handled 403).GetType = Forbidden := by
  decide

/-! ## Claims about `CheckRoleExists` -/

theorem splitNChars_two (sep : Char) (front name : List Char) (h : sep ∉ front) :
    splitNChars sep 2 (front ++ sep :: name) = [front, name] := by
  induction front with
  | nil => simp [splitNChars]
  | cons c cs ih =>
    have hc : c ≠ sep := fun e => h (by simp [e])
    have hcs : sep ∉ cs := fun e => h (by simp [e])
    simp [splitNChars, hc, ih hcs]

theorem stringsSplitN_two (front name : String) (h : '/' ∉ front.data) :
    stringsSplitN (front ++ "/" ++ name) '/' 2 = [front, name] := by
  have hd : (front ++ "/" ++ name).data = front.data ++ '/' :: name.data := by
    simp [String.data_append]
  simp [stringsSplitN, hd, splitNChars_two '/' front.data name.data h]

/-- C16: with a stored value whose members are well-formed ARNs, `CheckRoleExists`
returns `(false, "", "")` when no member belongs to the account; when the first member
of the account is `front/name` (`front` without '/'), it returns `(false, "", "")` if
`name` is the given role name and `(true, name, that member)` otherwise; no error in
both cases. -/
theorem CheckRoleExists_result (v roleName acct : String)
    (hwf : ∀ m ∈ members v, WellFormed m) :
    ((∀ m ∈ members v, accountIDOf m ≠ some acct) →
      CheckRoleExists (fetch (some v)) roleName acct = .returned (false, "", "", none)) ∧
    (∀ (before after : List String) (front name : String),
      members v = before ++ (front ++ "/" ++ name) :: after →
      (∀ m ∈ before, accountIDOf m ≠ some acct) →
      accountIDOf (front ++ "/" ++ name) = some acct → '/' ∉ front.data →
      CheckRoleExists (fetch (some v)) roleName acct
        = if name = roleName then .returned (false, "", "", none)
          else .returned (true, name, front ++ "/" ++ name, none)) := by
  have hv := ne_empty_of_wellFormed_members v hwf
  constructor
  · intro hnone
    have hchk : CheckIfAWSAccountExists (fetch (some v)) acct = (false, v, "", none) := by
      rw [CheckIfAWSAccountExists_some v _ hv]
      have := checkLoop_append v acct (members v) [] (fun m hm => ⟨hwf m hm, hnone m hm⟩)
      simpa [checkLoop] using this
    simp [CheckRoleExists, hchk]
  · intro before after front name hsplit hbefore hacc hslash
    obtain ⟨p, hp, hpa⟩ := (accountIDOf_eq_some _ _).mp hacc
    have hchk : CheckIfAWSAccountExists (fetch (some v)) acct
        = (true, v, front ++ "/" ++ name, none) := by
      rw [CheckIfAWSAccountExists_some v _ hv, hsplit, checkLoop_append v acct before _
        (fun m hm => ⟨hwf m (by rw [hsplit]; simp [hm]), hbefore m hm⟩)]
      simp [checkLoop, hp, hpa]
    have hsp := stringsSplitN_two front name hslash
    by_cases hn : name = roleName
    · simp only [CheckRoleExists, hchk, hsp]
      simp [hn]
    · simp only [CheckRoleExists, hchk, hsp]
      simp [hn]

/-- Witness of C16: the linked role of the account has another name. -/
theorem CheckRoleExists_result_witness :
    CheckRoleExists
        (fetch (some "arn:aws:iam::111111111111:role/a,arn:aws:iam::222222222222:role/b"))
        "c" "222222222222"
      = if "b" = "c" then .returned (false, "", "", none)
        else .returned (true, "b", "arn:aws:iam::222222222222:role" ++ "/" ++ "b", none) :=
  (CheckRoleExists_result
    "arn:aws:iam::111111111111:role/a,arn:aws:iam::222222222222:role/b" "c" "222222222222"
    (by decide)).2 ["arn:aws:iam::111111111111:role/a"] [] "arn:aws:iam::222222222222:role" "b"
    (by decide) (by decide) (by decide) (by decide)

/-- C19 fails on the code: `LinkOrgToRole` accepts and stores the well-formed ARN
`arn:aws:iam::123456789012:root`, which has no '/'; `CheckIfAWSAccountExists` then
selects it for the account, `strings.SplitN` gives a single element and the index
expression `existingRole[1]` of `CheckRoleExists` panics. -/
theorem CheckRoleExists_panics :
    WellFormed "arn:aws:iam::123456789012:root" ∧
    linkOrgStep none "org" "arn:aws:iam::123456789012:root"
      = ((true, none), some "arn:aws:iam::123456789012:root") ∧
    CheckIfAWSAccountExists (fetch (some "arn:aws:iam::123456789012:root")) "123456789012"
      = (true, "arn:aws:iam::123456789012:root", "arn:aws:iam::123456789012:root", none) ∧
    stringsSplitN "arn:aws:iam::123456789012:root" '/' 2 = ["arn:aws:iam::123456789012:root"] ∧
    CheckRoleExists (fetch (some "arn:aws:iam::123456789012:root")) "ManagedOpenShift-OCM-Role"
      "123456789012" = .panicked := by
  decide

/-! ## The matcher and `clusterNameRE` -/

/-- The matcher accepts exactly when a part at the start is in the language of the
expression and the continuation accepts the remainder. -/
theorem matchK_iff (r : Regexp) : ∀ (s : List Char) (k : List Char → Bool),
    r.matchK s k = true ↔ ∃ s1 s2, s = s1 ++ s2 ∧ r.Lang s1 ∧ k s2 = true := by
  induction r with
  | empty =>
    intro s k
    simp only [Regexp.matchK, Regexp.Lang]
    constructor
    · intro h
      exact ⟨[], s, rfl, rfl, h⟩
    · rintro ⟨s1, s2, rfl, rfl, h⟩
      simpa using h
  | cls p =>
    intro s k
    cases s with
    | nil => simp [Regexp.matchK, Regexp.Lang]
    | cons c cs =>
      simp only [Regexp.matchK, Regexp.Lang, Bool.and_eq_true]
      constructor
      · rintro ⟨hp, hk⟩
        exact ⟨[c], cs, rfl, ⟨c, rfl, hp⟩, hk⟩
      · rintro ⟨s1, s2, hs, ⟨d, rfl, hp⟩, hk⟩
        simp only [List.singleton_append, List.cons.injEq] at hs
        obtain ⟨rfl, rfl⟩ := hs
        exact ⟨hp, hk⟩
  | seq a b iha ihb =>
    intro s k
    simp only [Regexp.matchK, Regexp.Lang]
    rw [iha]
    constructor
    · rintro ⟨s1, s2, rfl, ha, hk⟩
      obtain ⟨t1, t2, rfl, hb, hk2⟩ := (ihb _ _).mp hk
      exact ⟨s1 ++ t1, t2, by simp, ⟨s1, t1, rfl, ha, hb⟩, hk2⟩
    · rintro ⟨s12, s3, rfl, ⟨s1, s2, rfl, ha, hb⟩, hk⟩
      exact ⟨s1, s2 ++ s3, by simp, ha, (ihb _ _).mpr ⟨s2, s3, rfl, hb, hk⟩⟩
  | opt a iha =>
    intro s k
    simp only [Regexp.matchK, Regexp.Lang, Bool.or_eq_true]
    rw [iha]
    constructor
    · rintro (⟨s1, s2, rfl, ha, hk⟩ | hk)
      · exact ⟨s1, s2, rfl, Or.inr ha, hk⟩
      · exact ⟨[], s, rfl, Or.inl rfl, hk⟩
    · rintro ⟨s1, s2, rfl, (rfl | ha), hk⟩
      · exact Or.inr (by simpa using hk)
      · exact Or.inl ⟨s1, s2, rfl, ha, hk⟩

theorem MatchString_iff (re : Regexp) (s : String) :
    re.MatchString s = true ↔ re.Lang s.data := by
  unfold Regexp.MatchString
  rw [matchK_iff]
  constructor
  · rintro ⟨s1, s2, hs, hl, hk⟩
    have h2 : s2 = [] := by simpa using hk
    subst h2
    simpa [hs] using hl
  · intro h
    exact ⟨s.data, [], by simp, h, rfl⟩

/-- The language of `[class]{0,n}`: at most `n` characters of the class. -/
theorem lang_repeatUpTo (p : Char → Bool) (n : Nat) : ∀ s : List Char,
    (Regexp.repeatUpTo (.cls p) n).Lang s ↔ s.length ≤ n ∧ ∀ c ∈ s, p c = true := by
  induction n with
  | zero =>
    intro s
    simp only [Regexp.repeatUpTo, Regexp.Lang]
    constructor
    · rintro rfl
      simp
    · rintro ⟨h, _⟩
      exact List.length_eq_zero.mp (by omega)
  | succ n ih =>
    intro s
    simp only [Regexp.repeatUpTo, Regexp.Lang]
    constructor
    · rintro (rfl | ⟨s1, s2, rfl, ⟨c, rfl, hp⟩, h2⟩)
      · simp
      · obtain ⟨hl, hall⟩ := (ih s2).mp h2
        refine ⟨by simp; omega, ?_⟩
        intro d hd
        rcases List.mem_cons.mp (by simpa using hd) with rfl | h
        · exact hp
        · exact hall d h
    · rintro ⟨hl, hall⟩
      cases s with
      | nil => exact Or.inl rfl
      | cons c cs =>
        refine Or.inr ⟨[c], cs, rfl, ⟨c, rfl, hall c (by simp)⟩, (ih cs).mpr ⟨?_, ?_⟩⟩
        · simp at hl
          omega
        · intro d hd
          exact hall d (by simp [hd])

theorem isLowerOrDigit_of_isLowerLetter (c : Char) (h : isLowerLetter c = true) :
    isLowerOrDigit c = true := by
  simp [isLowerOrDigit, h]

theorem isNameChar_of_isLowerOrDigit (c : Char) (h : isLowerOrDigit c = true) :
    isNameChar c = true := by
  simp [isNameChar, h]

/-- The language of `clusterNameRE`. -/
theorem lang_clusterNameRE (s : List Char) :
    clusterNameRE.Lang s ↔
      ∃ c, isLowerLetter c = true ∧
        (s = [c] ∨ ∃ mid last, s = c :: (mid ++ [last]) ∧ mid.length ≤ 13 ∧
          (∀ x ∈ mid, isNameChar x = true) ∧ isLowerOrDigit last = true) := by
  have hunfold : clusterNameRE.Lang s ↔
      ∃ s1 s2, s = s1 ++ s2 ∧ (∃ c, s1 = [c] ∧ isLowerLetter c = true) ∧
        (s2 = [] ∨ ∃ t1 t2, s2 = t1 ++ t2 ∧
          (Regexp.repeatUpTo (.cls isNameChar) 13).Lang t1 ∧
          ∃ d, t2 = [d] ∧ isLowerOrDigit d = true) := Iff.rfl
  rw [hunfold]
  simp only [lang_repeatUpTo]
  constructor
  · rintro ⟨s1, s2, rfl, ⟨c, rfl, hc⟩, (rfl | ⟨t1, t2, rfl, ⟨hl, hall⟩, ⟨d, rfl, hd⟩⟩)⟩
    · exact ⟨c, hc, Or.inl rfl⟩
    · exact ⟨c, hc, Or.inr ⟨t1, d, rfl, hl, hall, hd⟩⟩
  · rintro ⟨c, hc, (rfl | ⟨mid, last, rfl, hl, hall, hd⟩)⟩
    · exact ⟨[c], [], rfl, ⟨c, rfl, hc⟩, Or.inl rfl⟩
    · exact ⟨[c], mid ++ [last], rfl, ⟨c, rfl, hc⟩,
        Or.inr ⟨mid, [last], rfl, ⟨hl, hall⟩, ⟨last, rfl, hd⟩⟩⟩

/-- The valid cluster names, on the characters of the string. -/
theorem IsValidClusterName_chars (s : String) :
    IsValidClusterName s = true ↔
      (1 ≤ s.data.length ∧ s.data.length ≤ maxClusterNameLength ∧
        (∀ c ∈ s.data, isNameChar c = true) ∧
        (∃ c, s.data.head? = some c ∧ isLowerLetter c = true) ∧
        (∃ c, s.data.getLast? = some c ∧ isLowerOrDigit c = true)) := by
  unfold IsValidClusterName
  rw [MatchString_iff, lang_clusterNameRE]
  generalize s.data = l
  constructor
  · rintro ⟨c, hc, (rfl | ⟨mid, last, rfl, hl, hall, hd⟩)⟩
    · refine ⟨by simp, by simp [maxClusterNameLength], ?_, ⟨c, rfl, hc⟩,
        ⟨c, rfl, isLowerOrDigit_of_isLowerLetter c hc⟩⟩
      intro x hx
      have hxc : x = c := by simpa using hx
      subst hxc
      exact isNameChar_of_isLowerOrDigit x (isLowerOrDigit_of_isLowerLetter x hc)
    · refine ⟨by simp, by simp [maxClusterNameLength]; omega, ?_, ⟨c, rfl, hc⟩, ⟨last, ?_, hd⟩⟩
      · intro x hx
        rcases List.mem_cons.mp hx with rfl | hx
        · exact isNameChar_of_isLowerOrDigit x (isLowerOrDigit_of_isLowerLetter x hc)
        · rcases List.mem_append.mp hx with h | h
          · exact hall x h
          · have hxl : x = last := by simpa using h
            subst hxl
            exact isNameChar_of_isLowerOrDigit x hd
      · have : c :: (mid ++ [last]) = (c :: mid) ++ [last] := by simp
        rw [this, List.getLast?_concat]
  · rintro ⟨h1, h15, hall, ⟨c, hhead, hc⟩, ⟨d, hlast, hd⟩⟩
    cases l with
    | nil => simp at h1
    | cons a rest =>
      have hac : a = c := by simpa using hhead
      subst hac
      refine ⟨a, hc, ?_⟩
      rcases List.eq_nil_or_concat rest with rfl | ⟨mid, b, rfl⟩
      · exact Or.inl rfl
      · right
        have hcat : a :: mid.concat b = (a :: mid) ++ [b] := by simp
        rw [hcat, List.getLast?_concat] at hlast
        have hbd : b = d := by simpa using hlast
        subst hbd
        refine ⟨mid, b, by simp, ?_, ?_, hd⟩
        · simp [maxClusterNameLength] at h15
          omega
        · intro x hx
          exact hall x (by simp [hx])

/-! ## Claim about `IsValidClusterName` -/

/-- C17: `IsValidClusterName(s)` is true exactly when `s` has between 1 and 15
(`maxClusterNameLength`) characters, all of them lowercase ASCII letters, digits or
'-', the first one a lowercase letter and the last one a lowercase letter or a digit;
so it is false for the empty string, for every string of 16 characters and for every
string that ends in '-' or in a newline. -/
theorem IsValidClusterName_iff (s : String) :
    (IsValidClusterName s = true ↔
      (1 ≤ s.length ∧ s.length ≤ maxClusterNameLength ∧
        (∀ c ∈ s.data, isNameChar c = true) ∧
        (∃ c, s.data.head? = some c ∧ isLowerLetter c = true) ∧
        (∃ c, s.data.getLast? = some c ∧ isLowerOrDigit c = true))) ∧
    IsValidClusterName "" = false ∧
    (s.length = 16 → IsValidClusterName s = false) ∧
    (s.data.getLast? = some '-' ∨ s.data.getLast? = some '\n' →
      IsValidClusterName s = false) := by
  have hiff := IsValidClusterName_chars s
  refine ⟨hiff, by decide, ?_, ?_⟩
  · intro h16
    cases hv : IsValidClusterName s with
    | false => rfl
    | true =>
      have h := (hiff.mp hv).2.1
      simp only [String.length, maxClusterNameLength] at h16 h
      omega
  · intro hend
    cases hv : IsValidClusterName s with
    | false => rfl
    | true =>
      obtain ⟨d, hlast, hd⟩ := (hiff.mp hv).2.2.2.2
      rcases hend with h | h
      · rw [h] at hlast
        have hdd : d = '-' := by simpa using hlast.symm
        subst hdd
        exact absurd hd (by decide)
      · rw [h] at hlast
        have hdd : d = '\n' := by simpa using hlast.symm
        subst hdd
        exact absurd hd (by decide)

/-- Witness of C17: a valid name, a name of 16 characters, a name ending in '-'. -/
theorem IsValidClusterName_iff_witness :
    IsValidClusterName "my-cluster1" = true ∧
    IsValidClusterName "a234567890123456" = false ∧
    IsValidClusterName "my-cluster-" = false :=
  ⟨(IsValidClusterName_iff "my-cluster1").1.mpr (by decide),
   (IsValidClusterName_iff "a234567890123456").2.2.1 (by decide),
   (IsValidClusterName_iff "my-cluster-").2.2.2 (Or.inl (by decide))⟩

end Rosa
